import Mathlib

/-!
# A verification model of the `lamb` template engine

This file is a shallow embedding, in Lean 4, of the core language pipeline of
the `lamb` template engine (packages `token`, `lexer`, `parser`, `ast`,
`object`, `evaluator`, `internal` of the Go source tree): the mode-switching
lexer, the Pratt parser, the tree-walking evaluator and the file loader.
Definitions are translated from the Go source, function by function, keeping
the source names.  Conventions used throughout:

* Go `interface{}` runtime values are the inductive type `Value`; the Go
  `nil` interface is `Value.vNil`, and Go `error` values are `Value.vError`
  carrying the already-formatted message (`newError` prepends the
  `line: col: ` prefix exactly as the Go helper does).
* Go `int` and `int64` are distinct dynamic types; they are modelled as the
  distinct constructors `vInt` and `vInt64` over unbounded `Int`, with every
  arithmetic operation reducing its result into the signed 64-bit range via
  `wrap64` (two's-complement wrap-around, which is defined behaviour in Go).
* A Go runtime panic (division by zero, reflect's "hash of unhashable type",
  a failing type assertion, a nil dereference) is modelled as `Option.none`;
  an `error` RETURNED by the code is never `none` but a `vError` value.
* Go maps are modelled as association lists in insertion order; Go's map
  iteration order is unspecified, so wherever the source ranges over a map
  the model fixes the insertion order (noted at each such place).
* Template source bytes are modelled as `Char`s (all inputs of interest are
  ASCII); the Go byte sentinel `0` is the character `U+0000`.
-/

set_option maxHeartbeats 1600000
set_option maxRecDepth 8192

namespace Lamb

/-- The character `{` (written via its code point throughout). -/
def lcurly : Char := Char.ofNat 123

/-- The character `}`. -/
def rcurly : Char := Char.ofNat 125

/-- The double-quote character `"`. -/
def dquoteChar : Char := Char.ofNat 34

/-- The single-quote character. -/
def squoteChar : Char := Char.ofNat 39

/-- The NUL byte the Go lexer uses as its end-of-input sentinel. -/
def nulChar : Char := Char.ofNat 0

/-! ## package `token` -/

/-- Go: `type TokenType string`. -/
abbrev TokenType := String

/-- Go: `token.Token` — kind, literal text, and source position. -/
structure Token where
  type : TokenType
  literal : String
  col : Nat
  line : Nat
deriving DecidableEq, Repr

/-- The keyword table of `token.LookUpIdent`. -/
def keywords : List (String × TokenType) :=
  [("var", "var"), ("true", "true"), ("false", "false"), ("if", "if"),
   ("else", "else"), ("endif", "endif"), ("for", "for"), ("endfor", "endfor"),
   ("in", "in"), ("extends", "extends"), ("section", "section"),
   ("endsection", "endsection"), ("define", "define"), ("end", "end"),
   ("include", "include"), ("and", "and")]

/-- Go: `token.LookUpIdent`. -/
def LookUpIdent (ident : String) : TokenType :=
  match keywords.lookup ident with
  | some t => t
  | none => "IDENT"

/-! ## Runtime values (the Go `interface{}` universe used by the evaluator) -/

/-- The dynamic values the evaluator manipulates.  `vInt` is Go `int`,
`vInt64` is Go `int64` (as returned by the `len` builtin), `vArray` is
`[]interface{}`, `vIntSlice` is `[]int` (as returned by the `range` builtin),
`vMap` is `map[interface{}]interface{}`, `vBuiltin` is a `*object.Builtin`
registry entry (identified by its registry name, standing in for the pointer),
`vHostFunc` is a raw Go function value (obtainable only by reading the `Fn`
field of a builtin through a dot expression), and `vError` is a Go `error`. -/
inductive Value where
  | vNil
  | vBool (b : Bool)
  | vInt (n : Int)
  | vInt64 (n : Int)
  | vString (s : String)
  | vArray (elems : List Value)
  | vIntSlice (elems : List Int)
  | vMap (pairs : List (Value × Value))
  | vBuiltin (name : String)
  | vHostFunc (name : String)
  | vError (msg : String)
deriving Repr

/-- Go `fmt.Sprintf("%T", v)`: the dynamic type string of a value. -/
def typeString : Value → String
  | Value.vNil => "<nil>"
  | Value.vBool _ => "bool"
  | Value.vInt _ => "int"
  | Value.vInt64 _ => "int64"
  | Value.vString _ => "string"
  | Value.vArray _ => "[]interface \x7b\x7d"
  | Value.vIntSlice _ => "[]int"
  | Value.vMap _ => "map[interface \x7b\x7d]interface \x7b\x7d"
  | Value.vBuiltin _ => "*object.Builtin"
  | Value.vHostFunc _ => "func(...interface \x7b\x7d) interface \x7b\x7d"
  | Value.vError _ => "*errors.errorString"

/-- `reflect.ValueOf(v).Kind().String()`. -/
def kindString : Value → String
  | Value.vNil => "invalid"
  | Value.vBool _ => "bool"
  | Value.vInt _ => "int"
  | Value.vInt64 _ => "int64"
  | Value.vString _ => "string"
  | Value.vArray _ => "slice"
  | Value.vIntSlice _ => "slice"
  | Value.vMap _ => "map"
  | Value.vBuiltin _ => "ptr"
  | Value.vHostFunc _ => "func"
  | Value.vError _ => "ptr"

/-- Whether the dynamic type is one of Go's uncomparable (unhashable) kinds:
slices, maps and funcs.  Comparing two interfaces of the same uncomparable
dynamic type, or using such a value as a map key, panics at runtime. -/
def isUncomparableKind : Value → Bool
  | Value.vArray _ => true
  | Value.vIntSlice _ => true
  | Value.vMap _ => true
  | Value.vHostFunc _ => true
  | _ => false

/-- Go interface equality `a == b` for operands whose comparison does not
panic.  Values of different dynamic types compare unequal; `vError` and
distinct builtins are pointers, and two separately allocated errors are
never pointer-equal (the evaluator never compares an error with itself,
since errors short-circuit evaluation). -/
def primEq : Value → Value → Bool
  | Value.vNil, Value.vNil => true
  | Value.vBool a, Value.vBool b => a == b
  | Value.vInt a, Value.vInt b => a == b
  | Value.vInt64 a, Value.vInt64 b => a == b
  | Value.vString a, Value.vString b => a == b
  | Value.vBuiltin a, Value.vBuiltin b => a == b
  | _, _ => false

/-- Go interface equality including its panic behaviour: comparing two
interfaces with the same uncomparable dynamic type panics (`none`). -/
def goEq (a b : Value) : Option Bool :=
  if typeString a == typeString b && isUncomparableKind a then none
  else some (primEq a b)

/-- The signed 64-bit bounds of Go `int`. -/
def int64Min : Int := -(2 ^ 63)

/-- Largest Go `int`. -/
def int64Max : Int := 2 ^ 63 - 1

/-- Truth of `int64Min ≤ n ≤ int64Max`. -/
def inRange64 (n : Int) : Prop := int64Min ≤ n ∧ n ≤ int64Max

instance (n : Int) : Decidable (inRange64 n) := by
  unfold inRange64; infer_instance

/-- Two's-complement reduction of an integer into the signed 64-bit range;
Go's `int` arithmetic (including `-x` and the quotient `int64Min / -1`)
wraps around exactly like this. -/
def wrap64 (n : Int) : Int := (n + 2 ^ 63) % 2 ^ 64 - 2 ^ 63

/-! ## `evaluator` package: pure helper functions -/

/-- Go: `nativeBoolToBooleanObject`. -/
def nativeBoolToBooleanObject (input : Bool) : Bool :=
  if input then true else false

/-- Go: `newError` — formats the `line: col: ` position prefix in front of
the message and returns it as an error value. -/
def newError (t : Token) (msg : String) : Value :=
  Value.vError (toString t.line ++ ": " ++ toString t.col ++ ": " ++ msg)

/-- Go: `isError` (specialised to values; the Go version asks whether the
`interface{}` result is an `error`). -/
def isErrorValue : Value → Bool
  | Value.vError _ => true
  | _ => false

/-- The message carried by an error value (`fmt.Sprintf("%v", err)` /
`err.Error()`). -/
def errMsg : Value → String
  | Value.vError m => m
  | _ => ""

/-- Go: `isTruthy` — `nil` and `false` are falsy, everything else truthy. -/
def isTruthy : Value → Bool
  | Value.vNil => false
  | Value.vBool b => b
  | _ => true

/-- Go: `isNumber` — recognises every signed integer width (here: `int` and
`int64`; no value of width 8/16/32 is constructible in this engine) and
converts it to `int`. -/
def isNumber : Value → Int × Bool
  | Value.vNil => (0, false)
  | Value.vInt n => (n, true)
  | Value.vInt64 n => (n, true)
  | _ => (0, false)

/-- Go: `evalBangOperatorExpression`. -/
def evalBangOperatorExpression : Value → Value
  | Value.vBool true => Value.vBool false
  | Value.vBool false => Value.vBool true
  | Value.vNil => Value.vBool true
  | _ => Value.vBool false

/-- Go: `evalMinusPrefixOperatorExpression` — rejects any operand whose
dynamic type string is not exactly `"int"` (so in particular `int64`), and
negates with two's-complement wrap-around otherwise. -/
def evalMinusPrefixOperatorExpression (right : Value) (t : Token) : Value :=
  match right with
  | Value.vInt n => Value.vInt (wrap64 (-n))
  | _ => newError t ("unknown operator: -" ++ typeString right)

/-- Go: `evalPrefixExpression`. -/
def evalPrefixExpression (operator : String) (right : Value) (t : Token) : Value :=
  if operator == "!" then evalBangOperatorExpression right
  else if operator == "-" then evalMinusPrefixOperatorExpression right t
  else newError t ("unknown operator: " ++ operator ++ typeString right)

/-- Go: `evalIntegerInfixExpression`.  Both operands have already been
converted to `int` by `isNumber`.  Division by zero is a Go runtime panic
(`none`); every arithmetic result wraps into the 64-bit range. -/
def evalIntegerInfixExpression (operator : String) (leftVal rightVal : Int)
    (t : Token) : Option Value :=
  if operator == "+" then some (Value.vInt (wrap64 (leftVal + rightVal)))
  else if operator == "-" then some (Value.vInt (wrap64 (leftVal - rightVal)))
  else if operator == "*" then some (Value.vInt (wrap64 (leftVal * rightVal)))
  else if operator == "/" then
    if rightVal = 0 then none
    else some (Value.vInt (wrap64 (Int.tdiv leftVal rightVal)))
  else if operator == "<" then
    some (Value.vBool (nativeBoolToBooleanObject (decide (leftVal < rightVal))))
  else if operator == ">" then
    some (Value.vBool (nativeBoolToBooleanObject (decide (leftVal > rightVal))))
  else if operator == "==" then
    some (Value.vBool (nativeBoolToBooleanObject (leftVal == rightVal)))
  else if operator == "!=" then
    some (Value.vBool (nativeBoolToBooleanObject (leftVal != rightVal)))
  else some (newError t ("unknown operator: int " ++ operator ++ " int"))

/-- Go: `evalStringInfixExpression`. -/
def evalStringInfixExpression (operator : String) (leftVal rightVal : String)
    (t : Token) : Value :=
  if operator != "+" then
    newError t ("unknown operator: string " ++ operator ++ " string")
  else Value.vString (leftVal ++ rightVal)

/-- Whether a value is the `nil` interface (so `reflect.ValueOf` of it is
invalid); no nil-pointer value is constructible in this engine, so the
source's `Kind() == Ptr && IsNil()` disjunct is always false. -/
def isNilValue : Value → Bool
  | Value.vNil => true
  | _ => false

/-- Whether a value is the boolean `false` (the `right.(bool)` test of the
`and` branch). -/
def isFalseBool : Value → Bool
  | Value.vBool false => true
  | _ => false

/-- The `operator == "and"` branch of `evalInfixExpression`, kept exactly as
in the source: note that BOTH falsy tests for the boolean case inspect
`right` (the left-operand branch also type-asserts `right.(bool)`). -/
def goAnd (left right : Value) : Bool :=
  if isNilValue left then false
  else if isFalseBool right then false
  else if isNilValue right then false
  else if isFalseBool right then false
  else true

/-- Go: `evalInfixExpression` — the ordered `switch` over operand shapes.
`none` is the runtime panic of comparing two uncomparable values. -/
def evalInfixExpression (operator : String) (left right : Value)
    (t : Token) : Option Value :=
  let leftType := typeString left
  let rightType := typeString right
  let ln := isNumber left
  let rn := isNumber right
  if ln.2 && rn.2 then evalIntegerInfixExpression operator ln.1 rn.1 t
  else if operator == "==" then
    (goEq left right).map (fun b => Value.vBool (nativeBoolToBooleanObject b))
  else if operator == "!=" then
    (goEq left right).map (fun b => Value.vBool (nativeBoolToBooleanObject !b))
  else if operator == "and" then some (Value.vBool (goAnd left right))
  else if leftType == "string" && rightType == "string" then
    match left, right with
    | Value.vString ls, Value.vString rs =>
        some (evalStringInfixExpression operator ls rs t)
    | _, _ => none
  else if leftType != rightType then
    some (newError t ("type mismatch: " ++ leftType ++ " " ++ operator ++ " " ++ rightType))
  else
    some (newError t ("unknown operator: " ++ leftType ++ " " ++ operator ++ " " ++ rightType))

/-- Go: `evalArrayIndexExpression` — negative or past-the-end indices yield
the `nil` interface, in-range indices the element. -/
def evalArrayIndexExpression (elems : List Value) (id : Int) : Value :=
  if id < 0 || id > (elems.length : Int) - 1 then Value.vNil
  else elems.getD id.toNat Value.vNil

/-- First-match association lookup under Go interface equality (the keys
stored in a map are always of comparable type, so `primEq` is exact). -/
def mapLookup : List (Value × Value) → Value → Option Value
  | [], _ => none
  | (k, v) :: rest, key => if primEq k key then some v else mapLookup rest key

/-- Go: `evalMapIndexExpression` — `reflect.Value.MapIndex` panics on an
unhashable key (`none`); otherwise a missing key yields `nil`. -/
def evalMapIndexExpression (pairs : List (Value × Value)) (index : Value) :
    Option Value :=
  if isUncomparableKind index then none
  else some ((mapLookup pairs index).getD Value.vNil)

/-- Go: `evalIndexExpression` — slices indexed by `int` (exactly kind
`Int`; an `int64` index falls through), maps indexed by anything, and every
other combination is the `index operator not supported` error. -/
def evalIndexExpression (left index : Value) (t : Token) : Option Value :=
  match left, index with
  | Value.vArray elems, Value.vInt i => some (evalArrayIndexExpression elems i)
  | Value.vIntSlice elems, Value.vInt i =>
      some (evalArrayIndexExpression (elems.map Value.vInt) i)
  | Value.vMap pairs, _ => evalMapIndexExpression pairs index
  | _, _ => some (newError t ("index operator not supported: " ++ kindString left))

/-- Go map assignment `m[k] = v`: replace the entry whose key is `==` to
`k`, or append a new entry. -/
def mapAssign : List (Value × Value) → Value → Value → List (Value × Value)
  | [], k, v => [(k, v)]
  | (k0, v0) :: rest, k, v =>
      if primEq k0 k then (k, v) :: rest else (k0, v0) :: mapAssign rest k v

/-- Go map assignment including its panic on an unhashable key. -/
def mapSet (pairs : List (Value × Value)) (k v : Value) :
    Option (List (Value × Value)) :=
  if isUncomparableKind k then none else some (mapAssign pairs k v)

/-! ## `fmt.Sprintf("%v", ·)` — the stringification used when a statement
result is appended to the output.  Pointer addresses (`vBuiltin`,
`vHostFunc`) are not reproducible and are rendered as a fixed placeholder;
no template of interest prints one.  `fmt`'s sorting of map keys when
printing a map is not modelled (no claim prints a map). -/

mutual

/-- `fmt.Sprintf("%v", v)`. -/
def formatValue : Value → String
  | Value.vNil => "<nil>"
  | Value.vBool b => if b then "true" else "false"
  | Value.vInt n => toString n
  | Value.vInt64 n => toString n
  | Value.vString s => s
  | Value.vArray elems => "[" ++ formatValues elems ++ "]"
  | Value.vIntSlice elems =>
      "[" ++ String.intercalate " " (elems.map toString) ++ "]"
  | Value.vMap pairs => "map[" ++ formatPairs pairs ++ "]"
  | Value.vBuiltin _ => "&\x7b0x0\x7d"
  | Value.vHostFunc _ => "0x0"
  | Value.vError m => m

/-- Space-separated rendering of slice elements. -/
def formatValues : List Value → String
  | [] => ""
  | [v] => formatValue v
  | v :: rest => formatValue v ++ " " ++ formatValues rest

/-- Space-separated rendering of map entries. -/
def formatPairs : List (Value × Value) → String
  | [] => ""
  | [(k, v)] => formatValue k ++ ":" ++ formatValue v
  | (k, v) :: rest => formatValue k ++ ":" ++ formatValue v ++ " " ++ formatPairs rest

end

/-! ## `evaluator` builtins (`builtin.go`) -/

/-- The keys of the process-wide `Builtins` registry. -/
def builtinsKeys : List String :=
  ["len", "type", "map_key_exists", "range", "route", "config", "asset"]

/-- Go: `builtInError` (the position-less error a builtin reports). -/
def builtInError (msg : String) : Value := Value.vError msg

/-- Go: `lenBuiltIn` — length of a slice or string as an `int64`. -/
def lenBuiltIn (args : List Value) : Value :=
  match args with
  | [a] =>
      match a with
      | Value.vArray elems => Value.vInt64 elems.length
      | Value.vIntSlice elems => Value.vInt64 elems.length
      | Value.vString s => Value.vInt64 s.length
      | _ => builtInError ("argument to `len` not supported, got " ++ typeString a)
  | _ => builtInError ("wrong number of arguments in len. got=" ++
      toString args.length ++ ", want=1")

/-- Go: `typeBuiltIn`. -/
def typeBuiltIn (args : List Value) : Value :=
  match args with
  | [a] => Value.vString (typeString a)
  | _ => builtInError ("wrong number of arguments in type. got=" ++
      toString args.length ++ ", want=1")

/-- Go: `mapKeyExists` — `reflect.Value.MapIndex` panics (`none`) when the
key is unhashable. -/
def mapKeyExists (args : List Value) : Option Value :=
  match args with
  | [m, k] =>
      if isNilValue m then some (Value.vBool false)
      else match m with
        | Value.vMap pairs =>
            if isUncomparableKind k then none
            else some (Value.vBool (mapLookup pairs k).isSome)
        | _ => some (builtInError ("argument to `map_key_exists` not supported, got " ++
            typeString m ++ ", want=map"))
  | _ => some (builtInError ("wrong number of arguments in map_key_exists. got=" ++
      toString args.length ++ ", want=2"))

/-- The ascending run `[s, s+1, …, e]` built by `rangeBuiltIn`'s loop. -/
def rangeList (s e : Int) : List Int :=
  if s > e then []
  else ((e - s).toNat + 1 |> List.range).map (fun i => s + (i : Int))

/-- Go: `rangeBuiltIn` — both endpoints must have dynamic type `int`
(an `int64` endpoint is rejected); returns a `[]int`. -/
def rangeBuiltIn (args : List Value) : Value :=
  match args with
  | [a, b] =>
      match a, b with
      | Value.vInt s, Value.vInt e => Value.vIntSlice (rangeList s e)
      | _, _ => builtInError ("argument to `range` not supported, got " ++
          typeString a ++ ", want=int")
  | _ => builtInError ("wrong number of arguments in range. got=" ++
      toString args.length ++ ", want=2")

/-- Dispatch of `fn.Fn(args...)` over the registry.  The three host-backed
builtins (`route`, `config`, `asset`) call into the `govel` host (router,
YAML configuration, static-asset table), which is an external collaborator
not part of this repository; their results are host-defined and modelled as
outside the embedding (`none`).  No claim exercises them. -/
def applyBuiltin (name : String) (args : List Value) : Option Value :=
  if name == "len" then some (lenBuiltIn args)
  else if name == "type" then some (typeBuiltIn args)
  else if name == "map_key_exists" then mapKeyExists args
  else if name == "range" then some (rangeBuiltIn args)
  else none

/-- Go: `applyFunction` — only `*object.Builtin` values are callable. -/
def applyFunction (fn : Value) (args : List Value) (t : Token) : Option Value :=
  match fn with
  | Value.vBuiltin name => applyBuiltin name args
  | _ => some (newError t ("not a function: " ++ typeString fn))

/-! ## `object` package: the environment -/

/-- Go: `object.SectionContent`. -/
structure SectionContent where
  token : Token
  name : String
  content : Value
deriving Repr

/-- Go: `object.parentTemplate` — the captured sections and the parent
template name.  `Sections` is a Go map from string; modelled in insertion
order. -/
structure ParentTemplate where
  sections : List (String × SectionContent)
  fromName : String
deriving Repr

/-- Association-list read of a Go `map[string]V`. -/
def storeGet {α : Type} : List (String × α) → String → Option α
  | [], _ => none
  | (k, v) :: rest, name => if k == name then some v else storeGet rest name

/-- Association-list write of a Go `map[string]V` (replace or append). -/
def storeSet {α : Type} : List (String × α) → String → α → List (String × α)
  | [], name, val => [(name, val)]
  | (k, v) :: rest, name, val =>
      if k == name then (name, val) :: rest else (k, v) :: storeSet rest name val

/-- Association-list delete of a Go `map[string]V`. -/
def storeDelete {α : Type} : List (String × α) → String → List (String × α)
  | [], _ => []
  | (k, v) :: rest, name =>
      if k == name then rest else (k, v) :: storeDelete rest name

/-- Go: `object.Environment` — the name→value store, the optional parent
environment, the current file name and the inheritance-phase flags.  (No
constructor in the source ever sets `outer`, so it is `none` in every
reachable environment, but `Get` recurses through it as in the source.) -/
inductive Env where
  | mk (store : List (String × Value)) (outer : Option Env) (fileName : String)
       (inExtends isExtends inSection inDefine : Bool)
       (extendsFrom : ParentTemplate)

/-- The local store. -/
def Env.store : Env → List (String × Value)
  | .mk s _ _ _ _ _ _ _ => s

/-- The optional parent environment. -/
def Env.outer : Env → Option Env
  | .mk _ o _ _ _ _ _ _ => o

/-- The current template's resolved file path. -/
def Env.fileName : Env → String
  | .mk _ _ f _ _ _ _ _ => f

/-- The `InExtends` flag. -/
def Env.inExtends : Env → Bool
  | .mk _ _ _ a _ _ _ _ => a

/-- The `IsExtends` flag. -/
def Env.isExtends : Env → Bool
  | .mk _ _ _ _ b _ _ _ => b

/-- The `InSection` flag (never set to `true` anywhere in the source). -/
def Env.inSection : Env → Bool
  | .mk _ _ _ _ _ c _ _ => c

/-- The `InDefine` flag (never set to `true` anywhere in the source). -/
def Env.inDefine : Env → Bool
  | .mk _ _ _ _ _ _ d _ => d

/-- The `ExtendsFrom` record. -/
def Env.extendsFrom : Env → ParentTemplate
  | .mk _ _ _ _ _ _ _ x => x

/-- Functional update of the store. -/
def Env.withStore (e : Env) (s : List (String × Value)) : Env :=
  match e with
  | .mk _ o f a b c d x => .mk s o f a b c d x

/-- Functional update of the file name. -/
def Env.withFileName (e : Env) (f : String) : Env :=
  match e with
  | .mk s o _ a b c d x => .mk s o f a b c d x

/-- Functional update of `InExtends`. -/
def Env.withInExtends (e : Env) (a : Bool) : Env :=
  match e with
  | .mk s o f _ b c d x => .mk s o f a b c d x

/-- Functional update of `IsExtends`. -/
def Env.withIsExtends (e : Env) (b : Bool) : Env :=
  match e with
  | .mk s o f a _ c d x => .mk s o f a b c d x

/-- Functional update of `ExtendsFrom`. -/
def Env.withExtendsFrom (e : Env) (x : ParentTemplate) : Env :=
  match e with
  | .mk s o f a b c d _ => .mk s o f a b c d x

/-- Go: `Environment.Get` — local store first, then the outer chain. -/
def Env.get : Env → String → Option Value
  | .mk store outer _ _ _ _ _ _, name =>
      match storeGet store name with
      | some v => some v
      | none =>
          match outer with
          | some o => o.get name
          | none => none

/-- Go: `Environment.Set` — writes the local store. -/
def Env.set (e : Env) (name : String) (val : Value) : Env :=
  e.withStore (storeSet e.store name val)

/-- Go: `Environment.Delete` — removes from the local store. -/
def Env.delete (e : Env) (name : String) : Env :=
  e.withStore (storeDelete e.store name)

/-- Go: `object.NewEnvironment`. -/
def NewEnvironment : Env :=
  .mk [] none "" false false false false ⟨[], ""⟩

/-- Go: `object.CopyEnvironment` — shares the store, the outer pointer and
`ExtendsFrom`, resets the file name and the flags, and re-binds `sessions`
(to the `nil` interface when absent). -/
def CopyEnvironment (env : Env) : Env :=
  let base : Env := .mk env.store env.outer "" false false false false env.extendsFrom
  base.set "sessions" ((env.get "sessions").getD Value.vNil)

/-! ## `ast` package -/

mutual

/-- The expression variants of the Go AST.  Fields that the parser can leave
as a `nil` interface (results of a failed `parseExpression`) are `Option`.
`*ast.BlockStatement` fields are modelled as their statement lists (the
block's anchor token is used by no evaluation rule).  `mapLit` keeps its
pairs in parse order (the Go AST stores them in a map with unspecified
iteration order).  `htmlLit` mirrors `ast.HtmlLiteral`, which the parser
never constructs (`parseHtml` builds a `StringLiteral` instead). -/
inductive Expr where
  | identifier (tok : Token) (value : String)
  | integerLiteral (tok : Token) (value : Int)
  | stringLiteral (tok : Token) (value : String) (closed : Bool)
  | booleanLit (tok : Token) (value : Bool)
  | htmlLit (tok : Token) (value : String)
  | prefixExpr (tok : Token) (operator : String) (right : Option Expr)
  | infixExpr (tok : Token) (left : Option Expr) (operator : String) (right : Option Expr)
  | ifExpr (tok : Token) (condition : Option Expr) (consequence : List Stmt)
      (alternative : Option (List Stmt))
  | forExpr (tok : Token) (key : String) (valueName : String)
      (inExpr : Option Expr) (block : List Stmt)
  | arrayLit (tok : Token) (elements : List Expr)
  | mapLit (tok : Token) (pairs : List (Expr × Expr))
  | indexExpr (tok : Token) (left : Option Expr) (index : Option Expr)
  | callExpr (tok : Token) (function : Option Expr) (arguments : List Expr)
  | dotExpr (tok : Token) (leftTok : Token) (leftName : String)
      (rightTok : Token) (rightName : String)
  | extendsStmt (tok : Token) (fromName : String)
  | sectionStmt (tok : Token) (name : String) (block : List Stmt)
  | defineStmt (tok : Token) (name : String) (content : List Stmt)
  | includeStmt (tok : Token) (file : String) (vars : Option Expr)

/-- The statement variants of the Go AST (`VarStatement` and
`ExpressionStatement`; a `BlockStatement` is a statement list). -/
inductive Stmt where
  | varStmt (tok : Token) (name : String) (value : Option Expr)
  | exprStmt (tok : Token) (expr : Option Expr)

end

/-- The anchor token of an expression (Go `TokenLiteral()` reads it). -/
def Expr.tok : Expr → Token
  | .identifier t _ => t
  | .integerLiteral t _ => t
  | .stringLiteral t _ _ => t
  | .booleanLit t _ => t
  | .htmlLit t _ => t
  | .prefixExpr t _ _ => t
  | .infixExpr t _ _ _ => t
  | .ifExpr t _ _ _ => t
  | .forExpr t _ _ _ _ => t
  | .arrayLit t _ => t
  | .mapLit t _ => t
  | .indexExpr t _ _ => t
  | .callExpr t _ _ => t
  | .dotExpr t _ _ _ _ => t
  | .extendsStmt t _ => t
  | .sectionStmt t _ _ => t
  | .defineStmt t _ _ => t
  | .includeStmt t _ _ => t

/-- Go `TokenLiteral()` on an expression. -/
def Expr.tokenLiteral (e : Expr) : String := e.tok.literal

mutual

/-- The Go `String()` pretty-printer of expressions (`ast.go`), used at
runtime only to stringify `include` argument keys.  Dereferencing a field
the parser left `nil` panics in Go, hence the `Option` result.  A
`stringLiteral`'s `String()` is its token literal — quotes included. -/
def Expr.goString : Expr → Option String
  | .identifier _ v => some v
  | .integerLiteral t _ => some t.literal
  | .stringLiteral t _ _ => some t.literal
  | .booleanLit t _ => some t.literal
  | .htmlLit t _ => some t.literal
  | .prefixExpr _ op r => do pure ("(" ++ op ++ (← Expr.goStringOpt r) ++ ")")
  | .infixExpr _ l op r => do
      pure ("(" ++ (← Expr.goStringOpt l) ++ " " ++ op ++ " " ++ (← Expr.goStringOpt r) ++ ")")
  | .ifExpr _ c _ alt => do
      let cs ← Expr.goStringOpt c
      match alt with
      | some a => do pure ("if(" ++ cs ++ ") else " ++ (← Stmt.goStringList a))
      | none => pure ("if(" ++ cs ++ ") ")
  | .forExpr _ _ _ inE _ => do pure ("for " ++ (← Expr.goStringOpt inE))
  | .arrayLit _ elems => do pure ("[" ++ (← Expr.goStringJoin elems ", ") ++ "]")
  | .mapLit _ pairs => do pure ("\x7b" ++ (← Expr.goStringPairs pairs) ++ "\x7d")
  | .indexExpr _ l i => do
      pure ("(" ++ (← Expr.goStringOpt l) ++ "[" ++ (← Expr.goStringOpt i) ++ "])")
  | .callExpr _ f args => do
      pure ((← Expr.goStringOpt f) ++ "(" ++ (← Expr.goStringJoin args ", ") ++ ")")
  | .dotExpr _ _ l _ r => some (l ++ "." ++ r)
  | .extendsStmt _ f => some ("extends(" ++ f ++ ")")
  | .sectionStmt _ n _ => some ("section(" ++ n ++ ")")
  | .defineStmt _ n _ => some ("define(" ++ n ++ ")")
  | .includeStmt _ f vars =>
      match vars with
      | some v => do pure ("include(" ++ f ++ ", " ++ (← Expr.goString v) ++ ")")
      | none => some ("include(" ++ f ++ ")")

/-- `String()` through a possibly-`nil` expression pointer. -/
def Expr.goStringOpt : Option Expr → Option String
  | none => none
  | some e => e.goString

/-- `strings.Join(… , sep)` over expression lists. -/
def Expr.goStringJoin : List Expr → String → Option String
  | [], _ => some ""
  | [e], _ => e.goString
  | e :: rest, sep => do pure ((← e.goString) ++ sep ++ (← Expr.goStringJoin rest sep))

/-- The `k:v` comma-joined entries of a map literal's `String()`. -/
def Expr.goStringPairs : List (Expr × Expr) → Option String
  | [] => some ""
  | [(k, v)] => do pure ((← k.goString) ++ ":" ++ (← v.goString))
  | (k, v) :: rest => do
      pure ((← k.goString) ++ ":" ++ (← v.goString) ++ ", " ++ (← Expr.goStringPairs rest))

/-- The concatenated `String()` of a block's statements. -/
def Stmt.goStringList : List Stmt → Option String
  | [] => some ""
  | s :: rest => do pure ((← s.goString) ++ (← Stmt.goStringList rest))

/-- The Go `String()` of a statement (`VarStatement.String` explicitly
guards against a `nil` value, writing nothing). -/
def Stmt.goString : Stmt → Option String
  | .varStmt t n v =>
      match v with
      | some v0 => do pure (t.literal ++ " " ++ n ++ " = " ++ (← v0.goString))
      | none => some (t.literal ++ " " ++ n ++ " = ")
  | .exprStmt _ e =>
      match e with
      | some e0 => e0.goString
      | none => some ""

end

/-! ## The evaluator (`evaluator.go`)

`Eval` and its helpers thread the environment explicitly (the Go code
mutates a shared `*Environment`).  A result is `none` on a Go runtime
panic; otherwise it is the produced value (the Go `nil` result is `vNil`)
together with the updated environment.

The loader (`internal.LoadFile`) is abstracted as a function parameter so
that the tree-walking evaluator stays structurally recursive; the concrete
fuel-indexed `LoadFile` below ties the knot.  A loader yields `none` (out
of fuel / panic), an I/O-or-parse `error`, or the bytes written to the
output writer together with the callee's final environment (whose
`ExtendsFrom.Sections` map is shared with the caller in Go). -/

/-- The abstract `internal.LoadFile` re-entry point: template name and
environment in; error, or written output and final environment, out. -/
abbrev Loader := String → Env → Option (Except String (String × Env))

/-- An evaluation outcome: `none` is a Go runtime panic. -/
abbrev Res := Option (Value × Env)

/-- Go: `evalIdentifier` — environment first, then the builtin registry. -/
def evalIdentifier (name : String) (t : Token) (env : Env) : Value :=
  match env.get name with
  | some v => v
  | none =>
      if builtinsKeys.contains name then Value.vBuiltin name
      else newError t ("identifier not found: " ++ name)

/-- Go: `evalDotExpression` after the left identifier has been evaluated:
pointers are dereferenced, non-structs rejected, and a present field is
read (reading the unexported field of a Go `error` panics). -/
def evalDotExpression (left : Value) (leftName rightName : String)
    (t : Token) : Option Value :=
  match left with
  | Value.vBuiltin bname =>
      if rightName == "Fn" then some (Value.vHostFunc bname)
      else some (newError t ("field " ++ rightName ++ " does not exist in struct " ++ leftName))
  | Value.vError _ =>
      if rightName == "s" then none
      else some (newError t ("field " ++ rightName ++ " does not exist in struct " ++ leftName))
  | _ =>
      some (newError t ("left side of dot expression must be a struct, got=" ++
        kindString left))

/-- `fmt.Sprintf("%v", res)` appended to the running output when the
statement result is not the `nil` interface. -/
def accumulate (acc : String) (res : Value) : String :=
  match res with
  | Value.vNil => acc
  | v => acc ++ formatValue v

/-- Deleting the iteration variables after a `for` loop (`env.Delete(value)`
then, when a key name was given, `env.Delete(key)`). -/
def deleteLoopVars (env : Env) (key valueName : String) : Env :=
  let e := env.delete valueName
  if key != "" then e.delete key else e

/-- The tail of `evalProgram`: when the finished template had executed
`extends`, re-enter the loader on the parent with a copied environment
(`IsExtends = true`), replace the child's output with the parent's, and
report the first section left unconsumed in the shared sections map. -/
def evalProgramTail (L : Loader) (result : String) (env : Env) : Res :=
  if env.inExtends then
    let newEnv := (CopyEnvironment env).withIsExtends true
    match L env.extendsFrom.fromName newEnv with
    | none => none
    | some (Except.error msg) => some (Value.vError msg, env)
    | some (Except.ok (out, envAfter)) =>
        match envAfter.extendsFrom.sections with
        | [] => some (Value.vString out, env)
        | (_, sc) :: _ =>
            some (newError sc.token ("section " ++ sc.name ++ " does not exist"), env)
  else some (Value.vString result, env)

/-- The body of `evalIncludeStatement` after the fresh environment has been
seeded: re-enter the loader and emit the captured output inline (a loader
error is re-wrapped with `errors.New`). -/
def runInclude (L : Loader) (file : String) (newEnv : Env) (env : Env) : Res :=
  match L file newEnv with
  | none => none
  | some (Except.error msg) => some (Value.vError msg, env)
  | some (Except.ok (out, _)) => some (Value.vString out, env)

/-- Go: `evalStatements` — renders each statement (through the supplied
statement evaluator), stops at the first error, and appends
`fmt.Sprintf("%v", res)` of every non-`nil` result.  The statement
evaluator is a parameter so that this loop is structurally recursive on the
list; `Eval` below instantiates it. -/
def evalStatements (evalSt : Stmt → Env → Res) : List Stmt → String → Env → Res
  | [], acc, env => some (Value.vString acc, env)
  | s :: rest, acc, env =>
      match evalSt s env with
      | none => none
      | some (res, env1) =>
          if isErrorValue res then some (res, env1)
          else evalStatements evalSt rest (accumulate acc res) env1

/-- The statement loop of Go's `evalProgram`: like `evalStatements`, but a
statement error is rendered as the STRING `"<file>: <error>"` (via
`fmt.Sprintf`, NOT as an error value), and the `extends` finalization
(`tail`) runs at the end. -/
def evalProgramStmts (evalSt : Stmt → Env → Res) (tail : String → Env → Res) :
    List Stmt → String → Env → Res
  | [], acc, env => tail acc env
  | s :: rest, acc, env =>
      match evalSt s env with
      | none => none
      | some (r, env1) =>
          if isErrorValue r then
            some (Value.vString (env1.fileName ++ ": " ++ errMsg r), env1)
          else evalProgramStmts evalSt tail rest (accumulate acc r) env1

/-- Go: `evalExpressions` — left-to-right evaluation; on the first error a
one-element list holding just that error is returned. -/
def evalExpressions (evalE : Expr → Env → Res) : List Expr → List Value → Env →
    Option (List Value × Env)
  | [], acc, env => some (acc.reverse, env)
  | e :: rest, acc, env =>
      match evalE e env with
      | none => none
      | some (v, env1) =>
          if isErrorValue v then some ([v], env1)
          else evalExpressions evalE rest (v :: acc) env1

/-- Go: `evalMapLiteral` — evaluates each key and value (errors
short-circuit) and assigns into the map (panicking on an unhashable key). -/
def evalMapLiteral (evalE : Expr → Env → Res) : List (Expr × Expr) →
    List (Value × Value) → Env → Res
  | [], acc, env => some (Value.vMap acc, env)
  | (ke, ve) :: rest, acc, env =>
      match evalE ke env with
      | none => none
      | some (k, env1) =>
          if isErrorValue k then some (k, env1)
          else
            match evalE ve env1 with
            | none => none
            | some (v, env2) =>
                if isErrorValue v then some (v, env2)
                else
                  match mapSet acc k v with
                  | none => none
                  | some acc1 => evalMapLiteral evalE rest acc1 env2

/-- The slice arm of `evalForExpression`'s loop: bind the value name to the
element, the key name (when given) to the integer index, render the block
(`render` is `Eval` of the block), demand a string (the `res.(string)`
assertion), and concatenate. -/
def evalForSlice (render : Env → Res) (key valueName : String) :
    List Value → Nat → String → Env → Res
  | [], _, out, env => some (Value.vString out, env)
  | x :: rest, i, out, env =>
      let env1 := env.set valueName x
      let env2 := if key != "" then env1.set key (Value.vInt i) else env1
      match render env2 with
      | none => none
      | some (res, env3) =>
          if isErrorValue res then some (res, env3)
          else
            match res with
            | Value.vString s => evalForSlice render key valueName rest (i + 1) (out ++ s) env3
            | _ => none

/-- The map arm of `evalForExpression`'s loop: both the value name AND the
key name (when given) are bound to the map KEY, as in the source. -/
def evalForMap (render : Env → Res) (key valueName : String) :
    List Value → String → Env → Res
  | [], out, env => some (Value.vString out, env)
  | k :: rest, out, env =>
      let env1 := env.set valueName k
      let env2 := if key != "" then env1.set key k else env1
      match render env2 with
      | none => none
      | some (res, env3) =>
          if isErrorValue res then some (res, env3)
          else
            match res with
            | Value.vString s => evalForMap render key valueName rest (out ++ s) env3
            | _ => none

/-- The seeding loop of `evalIncludeStatement`:
`newEnv.Set(key.String(), Eval(value, env))` for each pair — the key is the
AST `String()` form (not evaluated), the value's evaluation result is NOT
checked for errors, and the caller's environment threads through the
evaluations. -/
def evalIncludeSeed (evalE : Expr → Env → Res) : List (Expr × Expr) →
    Env → Env → Option (Env × Env)
  | [], newEnv, env => some (newEnv, env)
  | (ke, ve) :: rest, newEnv, env =>
      match ke.goString with
      | none => none
      | some ks =>
          match evalE ve env with
          | none => none
          | some (v, env1) => evalIncludeSeed evalE rest (newEnv.set ks v) env1

mutual

/-- Go: `Eval` — the single recursive dispatch, restricted to expression
nodes (`Program` is `evalProgram` below, statements are `EvalStmt`).  The
fuel bounds the AST nesting depth only (each nesting level consumes at most
two units); `none` on fuel exhaustion is unreachable whenever the fuel
exceeds twice the expression depth, and every use in this file supplies
ample fuel. -/
def Eval (L : Loader) : Nat → Expr → Env → Res
  | 0, _, _ => none
  | fuel + 1, e, env =>
      match e with
      | Expr.integerLiteral _ n => some (Value.vInt n, env)
      | Expr.booleanLit _ b => some (Value.vBool (nativeBoolToBooleanObject b), env)
      | Expr.stringLiteral t v closed =>
          if !closed then some (newError t "unclosed string literal", env)
          else some (Value.vString v, env)
      | Expr.htmlLit _ v => some (Value.vString v, env)
      | Expr.identifier t name => some (evalIdentifier name t env, env)
      | Expr.prefixExpr t op right =>
          match EvalOpt L fuel right env with
          | none => none
          | some (r, env1) =>
              if isErrorValue r then some (r, env1)
              else some (evalPrefixExpression op r t, env1)
      | Expr.infixExpr t left op right =>
          match EvalOpt L fuel left env with
          | none => none
          | some (l, env1) =>
              if isErrorValue l then some (l, env1)
              else
                match EvalOpt L fuel right env1 with
                | none => none
                | some (r, env2) =>
                    if isErrorValue r then some (r, env2)
                    else
                      match evalInfixExpression op l r t with
                      | none => none
                      | some v => some (v, env2)
      | Expr.ifExpr _ cond cons alt =>
          match EvalOpt L fuel cond env with
          | none => none
          | some (c, env1) =>
              if isErrorValue c then some (c, env1)
              else if isTruthy c then evalStatements (EvalStmt L fuel) cons "" env1
              else
                match alt with
                | some a => evalStatements (EvalStmt L fuel) a "" env1
                | none => some (Value.vNil, env1)
      | Expr.callExpr t fn args =>
          match EvalOpt L fuel fn env with
          | none => none
          | some (f, env1) =>
              if isErrorValue f then some (f, env1)
              else
                match evalExpressions (Eval L fuel) args [] env1 with
                | none => none
                | some (vs, env2) =>
                    if vs.length == 1 && isErrorValue (vs.headD Value.vNil) then
                      some (vs.headD Value.vNil, env2)
                    else
                      match applyFunction f vs t with
                      | none => none
                      | some v => some (v, env2)
      | Expr.arrayLit _ elems =>
          match evalExpressions (Eval L fuel) elems [] env with
          | none => none
          | some (vs, env1) =>
              if vs.length == 1 && isErrorValue (vs.headD Value.vNil) then
                some (vs.headD Value.vNil, env1)
              else some (Value.vArray vs, env1)
      | Expr.indexExpr t left index =>
          match EvalOpt L fuel left env with
          | none => none
          | some (l, env1) =>
              if isErrorValue l then some (l, env1)
              else
                match EvalOpt L fuel index env1 with
                | none => none
                | some (i, env2) =>
                    if isErrorValue i then some (i, env2)
                    else
                      match evalIndexExpression l i t with
                      | none => none
                      | some v => some (v, env2)
      | Expr.mapLit _ pairs => evalMapLiteral (Eval L fuel) pairs [] env
      | Expr.forExpr t key valueName inE block =>
          match EvalOpt L fuel inE env with
          | none => none
          | some (inv, env1) =>
              if isErrorValue inv then some (inv, env1)
              else
                match inv with
                | Value.vMap pairs =>
                    -- Go ranges over `MapKeys()` in unspecified order; the
                    -- model fixes the insertion order of the pairs.
                    match evalForMap (evalStatements (EvalStmt L fuel) block "")
                        key valueName (pairs.map Prod.fst) "" env1 with
                    | none => none
                    | some (res, env2) =>
                        if isErrorValue res then some (res, env2)
                        else some (res, deleteLoopVars env2 key valueName)
                | Value.vArray elems =>
                    match evalForSlice (evalStatements (EvalStmt L fuel) block "")
                        key valueName elems 0 "" env1 with
                    | none => none
                    | some (res, env2) =>
                        if isErrorValue res then some (res, env2)
                        else some (res, deleteLoopVars env2 key valueName)
                | Value.vIntSlice elems =>
                    match evalForSlice (evalStatements (EvalStmt L fuel) block "")
                        key valueName (elems.map Value.vInt) 0 "" env1 with
                    | none => none
                    | some (res, env2) =>
                        if isErrorValue res then some (res, env2)
                        else some (res, deleteLoopVars env2 key valueName)
                | _ => some (newError t (typeString inv ++ " is not iterable"), env1)
      | Expr.dotExpr t ltok lname _ rname =>
          let left := evalIdentifier lname ltok env
          if isErrorValue left then some (left, env)
          else
            match evalDotExpression left lname rname t with
            | none => none
            | some v => some (v, env)
      | Expr.extendsStmt t fromName =>
          if env.inExtends || env.isExtends then
            some (newError t "nested extends are not allowed", env)
          else
            some (Value.vNil,
              (env.withInExtends true).withExtendsFrom
                { env.extendsFrom with fromName := fromName })
      | Expr.sectionStmt t name block =>
          if !env.inExtends then
            some (newError t "section statement is only allowed in extends", env)
          else if env.isExtends then
            some (newError t "section statement is only allowed with extends", env)
          else if env.inSection then
            some (newError t "section statement is not allowed in a section", env)
          else
            -- the block's result — error or not — is stored as the content
            match evalStatements (EvalStmt L fuel) block "" env with
            | none => none
            | some (content, env1) =>
                some (Value.vNil,
                  env1.withExtendsFrom
                    { env1.extendsFrom with
                        sections := storeSet env1.extendsFrom.sections name
                          ⟨t, name, content⟩ })
      | Expr.defineStmt t name content =>
          if env.inDefine then
            some (newError t "nested defines are not allowed", env)
          else
            match storeGet env.extendsFrom.sections name with
            | some sc =>
                some (sc.content,
                  env.withExtendsFrom
                    { env.extendsFrom with
                        sections := storeDelete env.extendsFrom.sections name })
            | none => evalStatements (EvalStmt L fuel) content "" env
      | Expr.includeStmt t file vars =>
          match vars with
          | none => runInclude L file NewEnvironment env
          | some ve =>
              match ve with
              | Expr.mapLit _ pairs =>
                  match evalIncludeSeed (Eval L fuel) pairs NewEnvironment env with
                  | none => none
                  | some (newEnv, env1) => runInclude L file newEnv env1
              | _ =>
                  some (newError t ("vars in include must be a map, got=" ++
                    ve.tokenLiteral), env)

/-- `Eval` through a possibly-`nil` node pointer (Go's `Eval(nil, env)`
falls through the type switch and returns `nil`). -/
def EvalOpt (L : Loader) : Nat → Option Expr → Env → Res
  | _, none, env => some (Value.vNil, env)
  | 0, some _, _ => none
  | fuel + 1, some e, env => Eval L fuel e env

/-- Go: the `*ast.VarStatement` and `*ast.ExpressionStatement` cases of
`Eval`. -/
def EvalStmt (L : Loader) : Nat → Stmt → Env → Res
  | 0, _, _ => none
  | fuel + 1, Stmt.varStmt _ name value, env =>
      match EvalOpt L fuel value env with
      | none => none
      | some (val, env1) =>
          if isErrorValue val then some (val, env1)
          else some (Value.vNil, env1.set name val)
  | fuel + 1, Stmt.exprStmt _ e, env => EvalOpt L fuel e env

end

/-- Go: `evalProgram` — the statement loop with the file-name error prefix
and the `extends` finalization. -/
def evalProgram (L : Loader) (fuel : Nat) (stmts : List Stmt) (env : Env) : Res :=
  evalProgramStmts (EvalStmt L fuel) (evalProgramTail L) stmts "" env

/-! ## The lexer (`lexer.go`)

The internal scanning loops (`skipWhitespace`, `readIdentifier`,
`readNumber`, `readString`, `readComment`) and the comment-restart
recursion of `NextToken` are fuel-indexed; a fuel of `input.length + 2`
always suffices (every loop iteration consumes at least one input byte),
and every use below passes at least that much, so the fuel-exhausted
fallback is unreachable. -/

/-- Go: `lexer.Lexer` — input bytes, the current and next read offsets,
line/column bookkeeping, the current byte and the HTML/code mode flag. -/
structure Lexer where
  input : List Char
  position : Nat
  readPosition : Nat
  line : Nat
  column : Nat
  ch : Char
  inCode : Bool
deriving Repr

/-- Go: `isLetter`. -/
def isLetter (c : Char) : Bool :=
  ((Char.ofNat 97 ≤ c && c ≤ Char.ofNat 122) ||
   (Char.ofNat 65 ≤ c && c ≤ Char.ofNat 90) || c == Char.ofNat 95)

/-- Go: `isDigit`. -/
def isDigit (c : Char) : Bool :=
  (Char.ofNat 48 ≤ c && c ≤ Char.ofNat 57)

/-- Go: `Lexer.readChar` — advance one byte; past the end the sentinel is
installed and the position fields stay put (so a token that runs to the
very end of the input keeps `position` at the last byte). -/
def Lexer.readChar (l : Lexer) : Lexer :=
  if l.readPosition ≥ l.input.length then
    { l with ch := nulChar, column := if l.column == 0 then 1 else l.column }
  else
    let c := l.input.getD l.readPosition nulChar
    let l1 := { l with ch := c, position := l.readPosition, column := l.column + 1, readPosition := l.readPosition + 1 }
    if c == '\n' then { l1 with line := l1.line + 1, column := 0 }
    else if c == '\t' then { l1 with column := l1.column + 3 }
    else l1

/-- Go: `lexer.New` (the constructor bumps `Line` to 1 and primes `ch`). -/
def Lexer.new (input : String) : Lexer :=
  Lexer.readChar ⟨input.data, 0, 0, 1, 0, nulChar, false⟩

/-- Go: `Lexer.peekChar`. -/
def Lexer.peekChar (l : Lexer) : Char :=
  if l.readPosition ≥ l.input.length then nulChar
  else l.input.getD l.readPosition nulChar

/-- Go: `Lexer.skipWhitespace`. -/
def Lexer.skipWhitespace : Nat → Lexer → Lexer
  | 0, l => l
  | fuel + 1, l =>
      if l.ch == ' ' || l.ch == '\t' || l.ch == '\n' || l.ch == '\r' then
        Lexer.skipWhitespace fuel l.readChar
      else l

/-- Go: `Lexer.newToken`. -/
def Lexer.newToken (l : Lexer) (tt : TokenType) (c : Char) : Token :=
  ⟨tt, String.mk [c], l.column, l.line⟩

/-- The scanning loop of `readIdentifier`. -/
def Lexer.readIdentifierLoop : Nat → Lexer → Lexer
  | 0, l => l
  | fuel + 1, l =>
      if isLetter l.ch then Lexer.readIdentifierLoop fuel l.readChar else l

/-- Go: `Lexer.readIdentifier` — returns `input[pos:l.position]`. -/
def Lexer.readIdentifier (l : Lexer) : String × Lexer :=
  let pos := l.position
  let l2 := Lexer.readIdentifierLoop (l.input.length + 1) l
  (String.mk ((l2.input.drop pos).take (l2.position - pos)), l2)

/-- The scanning loop of `readNumber`. -/
def Lexer.readNumberLoop : Nat → Lexer → Lexer
  | 0, l => l
  | fuel + 1, l =>
      if isDigit l.ch then Lexer.readNumberLoop fuel l.readChar else l

/-- Go: `Lexer.readNumber`. -/
def Lexer.readNumber (l : Lexer) : String × Lexer :=
  let pos := l.position
  let l2 := Lexer.readNumberLoop (l.input.length + 1) l
  (String.mk ((l2.input.drop pos).take (l2.position - pos)), l2)

/-- The scanning loop of `readString`: advance until the opening quote's
mate or end of input. -/
def Lexer.readStringLoop (quote : Char) : Nat → Lexer → Lexer
  | 0, l => l
  | fuel + 1, l =>
      let l1 := l.readChar
      if l1.ch == quote || l1.ch == nulChar then l1
      else Lexer.readStringLoop quote fuel l1

/-- Go: `Lexer.readString` — the token literal is
`input[position-1 : l.position+1]`, i.e. it HOLDS the surrounding quotes
(and on an unterminated string simply runs to the end of the input; no
field of the token records whether the closing quote was found). -/
def Lexer.readString (l : Lexer) (quote : Char) : Token × Lexer :=
  let col := l.column
  let line := l.line
  let position := l.position + 1
  let l2 := Lexer.readStringLoop quote (l.input.length + 1) l
  (⟨"STRING",
    String.mk ((l2.input.drop (position - 1)).take (l2.position + 1 - (position - 1))),
    col, line⟩, l2)

/-- The scanning loop of `readComment`. -/
def Lexer.readCommentLoop : Nat → Lexer → Lexer
  | 0, l => l
  | fuel + 1, l =>
      if l.ch == Char.ofNat 35 || l.ch == nulChar then l.readChar
      else Lexer.readCommentLoop fuel l.readChar

/-- Go: `Lexer.readComment` — discard up to the closing `#` (or EOF). -/
def Lexer.readComment (l : Lexer) : Lexer :=
  Lexer.readCommentLoop (l.input.length + 1) l.readChar

/-- Go: `Lexer.NextToken`.  In HTML mode each byte is one `HTML` token and
`{?` switches to code mode, falling through to the code-mode tokenizer:
skip whitespace, close the region on `?}`, and tokenize operators, strings,
comments, identifiers and numbers.  Tokens built by the two-character
`==`/`!=` branches carry the Go zero-value position `(0, 0)`, as in the
source.  The fuel only bounds the restart after a discarded comment. -/
def Lexer.nextToken : Nat → Lexer → Token × Lexer
  | 0, l => (⟨"EOF", "", l.column, l.line⟩, l)
  | fuel + 1, l0 =>
      let (handled, l') :=
        if !l0.inCode && l0.ch != nulChar then
          if l0.ch == lcurly && l0.peekChar == '?' then
            (none, ({ l0 with inCode := true }).readChar.readChar)
          else
            (some ((⟨"HTML", String.mk [l0.ch], l0.column, l0.line⟩, l0.readChar)), l0)
        else (none, l0)
      match handled with
      | some r => r
      | none =>
        let l := Lexer.skipWhitespace (l'.input.length + 1) l'
        if l.ch == '?' && l.peekChar == rcurly then
          let l1 := ({ l with inCode := false }).readChar.readChar
          (⟨"EOC", "", l1.column, l1.line⟩, l1)
        else if l.ch == '=' then
          if l.peekChar == '=' then (⟨"==", "==", 0, 0⟩, l.readChar.readChar)
          else (l.newToken "=" l.ch, l.readChar)
        else if l.ch == '+' then (l.newToken "+" l.ch, l.readChar)
        else if l.ch == '-' then (l.newToken "-" l.ch, l.readChar)
        else if l.ch == '!' then
          if l.peekChar == '=' then (⟨"!=", "!=", 0, 0⟩, l.readChar.readChar)
          else (l.newToken "!" l.ch, l.readChar)
        else if l.ch == '*' then (l.newToken "*" l.ch, l.readChar)
        else if l.ch == '/' then (l.newToken "/" l.ch, l.readChar)
        else if l.ch == '<' then (l.newToken "<" l.ch, l.readChar)
        else if l.ch == '>' then (l.newToken ">" l.ch, l.readChar)
        else if l.ch == ';' then (l.newToken ";" l.ch, l.readChar)
        else if l.ch == '(' then (l.newToken "(" l.ch, l.readChar)
        else if l.ch == ')' then (l.newToken ")" l.ch, l.readChar)
        else if l.ch == ',' then (l.newToken "," l.ch, l.readChar)
        else if l.ch == lcurly then (l.newToken "\x7b" l.ch, l.readChar)
        else if l.ch == rcurly then (l.newToken "\x7d" l.ch, l.readChar)
        else if l.ch == dquoteChar then
          let (tok, l1) := l.readString dquoteChar
          (tok, l1.readChar)
        else if l.ch == squoteChar then
          let (tok, l1) := l.readString squoteChar
          (tok, l1.readChar)
        else if l.ch == '[' then (l.newToken "[" l.ch, l.readChar)
        else if l.ch == ']' then (l.newToken "]" l.ch, l.readChar)
        else if l.ch == ':' then (l.newToken ":" l.ch, l.readChar)
        else if l.ch == '.' then (l.newToken "." l.ch, l.readChar)
        else if l.ch == Char.ofNat 35 then Lexer.nextToken fuel l.readComment
        else if l.ch == nulChar then (⟨"EOF", "", l.column, l.line⟩, l.readChar)
        else if isLetter l.ch then
          let col := l.column
          let line := l.line
          let (lit, l1) := l.readIdentifier
          (⟨LookUpIdent lit, lit, col, line⟩, l1)
        else if isDigit l.ch then
          let col := l.column
          let line := l.line
          let (lit, l1) := l.readNumber
          (⟨"INT", lit, col, line⟩, l1)
        else (l.newToken "ILLEGAL" l.ch, l.readChar)

/-- One `NextToken` call with always-sufficient fuel. -/
def Lexer.next (l : Lexer) : Token × Lexer :=
  Lexer.nextToken (l.input.length + 2) l

/-! ## The parser (`parser.go`)

A Pratt parser over the token stream.  The parse functions are mutually
recursive through a fuel parameter that bounds the recursion DEPTH; every
concrete parse below is run with fuel far beyond the input length, so the
fuel-exhausted fallback (which yields `nil` without recording an error) is
never reached.

Whenever a Go parselet returns a `nil` expression it has already appended a
parser error, and a non-empty error list makes `LoadFile` abort before
evaluation; consequently a `nil` entry inside an expression list or a map
literal is never evaluated, and the model drops such entries instead of
storing typed nils.  The one true parser panic — `parseDotExpression`
calling `TokenLiteral()` on a `nil` left operand — is modelled by the
sticky `crashed` flag. -/

/-- The precedence table (`LOWEST = 1`, … `AND = 11`). -/
def precedenceOf (t : TokenType) : Nat :=
  if t == "==" then 2
  else if t == "!=" then 2
  else if t == "<" then 3
  else if t == ">" then 3
  else if t == "+" then 4
  else if t == "-" then 4
  else if t == "/" then 5
  else if t == "*" then 5
  else if t == "(" then 7
  else if t == "[" then 8
  else if t == "." then 10
  else if t == "and" then 11
  else 1

/-- Go: `parser.Parser` — the lexer, the accumulated error messages, and
the one-token lookahead window. -/
structure Parser where
  l : Lexer
  errors : List String
  curToken : Token
  peekToken : Token
  crashed : Bool
deriving Repr

/-- Go: `Parser.nextToken`. -/
def Parser.nextToken (p : Parser) : Parser :=
  let (t, l2) := p.l.next
  { p with curToken := p.peekToken, peekToken := t, l := l2 }

/-- Go: `parser.New` — prime the two-token window (the parselet tables are
the dispatch functions below). -/
def Parser.new (l : Lexer) : Parser :=
  (Parser.nextToken (Parser.nextToken ⟨l, [], ⟨"", "", 0, 0⟩, ⟨"", "", 0, 0⟩, false⟩))

/-- Go: `Parser.curTokenIs`. -/
def Parser.curTokenIs (p : Parser) (t : TokenType) : Bool := p.curToken.type == t

/-- Go: `Parser.peekTokenIs`. -/
def Parser.peekTokenIs (p : Parser) (t : TokenType) : Bool := p.peekToken.type == t

/-- Go: `Parser.peekError` — the position comes from the LEXER's current
line/column, not from the offending token. -/
def Parser.peekError (p : Parser) (t : TokenType) : Parser :=
  { p with errors := p.errors ++
      [toString p.l.line ++ ":" ++ toString p.l.column ++
       ": expected new token to be " ++ t ++ ", but got " ++
       p.peekToken.type ++ " instead"] }

/-- Go: `Parser.lastTokenError`. -/
def Parser.lastTokenError (p : Parser) (t : TokenType) (got : String) : Parser :=
  { p with errors := p.errors ++
      [toString p.l.line ++ ": " ++ toString p.l.column ++
       ": expected past token to be " ++ t ++ ", but got " ++ got ++ " instead"] }

/-- Go: `Parser.noPrefixParseFnError` (`%q` wraps the token type in
double quotes). -/
def Parser.noPrefixParseFnError (p : Parser) (t : Token) : Parser :=
  { p with errors := p.errors ++
      [toString t.line ++ ":" ++ toString t.col ++ ": unexpected token \x22" ++
       t.type ++ "\x22"] }

/-- Go: `Parser.expectPeek`. -/
def Parser.expectPeek (p : Parser) (t : TokenType) : Bool × Parser :=
  if p.peekTokenIs t then (true, p.nextToken) else (false, p.peekError t)

/-- Go: `Parser.peekPrecedence`. -/
def Parser.peekPrecedence (p : Parser) : Nat := precedenceOf p.peekToken.type

/-- Go: `Parser.curPrecedence`. -/
def Parser.curPrecedence (p : Parser) : Nat := precedenceOf p.curToken.type

/-- `strconv.ParseInt(lit, 0, 64)` on a run of ASCII digits: base 0 means a
leading `0` selects octal (so a digit `8`/`9` after a leading zero is a
syntax error), and a value outside the signed 64-bit range is a range
error; `none` is any error. -/
def goParseInt (lit : String) : Option Int :=
  let ds := lit.data
  let digitVals := ds.map (fun c => (c.toNat : Int) - 48)
  if ds.isEmpty || !ds.all isDigit then none
  else
    let value :=
      match ds with
      | c :: _ :: _ =>
          if c == Char.ofNat 48 then
            if digitVals.all (fun d => d < 8) then
              some (digitVals.foldl (fun acc d => acc * 8 + d) 0)
            else none
          else some (digitVals.foldl (fun acc d => acc * 10 + d) 0)
      | _ => some (digitVals.foldl (fun acc d => acc * 10 + d) 0)
    match value with
    | none => none
    | some v => if v > int64Max then none else some v

/-- Whether a prefix parselet is registered for the token type. -/
def hasPrefixFn (t : TokenType) : Bool :=
  ["IDENT", "INT", "!", "-", "true", "false", "(", "if", "STRING", "[",
   "\x7b", "for", "HTML", "EOC", "extends", "section", "define",
   "include"].contains t

/-- Whether an infix parselet is registered for the token type. -/
def hasInfixFn (t : TokenType) : Bool :=
  ["+", "-", "/", "*", "==", "!=", "<", ">", "(", "[", ".", "and"].contains t

/-- Go: `parseIdentifier` (non-recursive parselets live outside the mutual
block). -/
def Parser.parseIdentifier (p : Parser) : Option Expr × Parser :=
  (some (Expr.identifier p.curToken p.curToken.literal), p)

/-- Go: `parseIntegerLiteral`. -/
def Parser.parseIntegerLiteral (p : Parser) : Option Expr × Parser :=
  match goParseInt p.curToken.literal with
  | some v => (some (Expr.integerLiteral p.curToken v), p)
  | none =>
      (none, { p with errors := p.errors ++
        [toString p.l.line ++ ":" ++ toString p.l.column ++
         ": could not parse \x22" ++ p.curToken.literal ++ "\x22 as integer"] })

/-- Go: `parseBoolean`. -/
def Parser.parseBoolean (p : Parser) : Option Expr × Parser :=
  (some (Expr.booleanLit p.curToken (p.curTokenIs "true")), p)

/-- Go: `parseStringLiteral` — note that the `Closed` field is never
assigned anywhere in the source, so it carries its zero value `false`, and
`Value` is the token literal, quotes included. -/
def Parser.parseStringLiteral (p : Parser) : Option Expr × Parser :=
  (some (Expr.stringLiteral p.curToken p.curToken.literal false), p)

/-- Go: `parseHtml` — builds a `StringLiteral` (not an `HtmlLiteral`), so
its `Closed` field is also the zero value `false`. -/
def Parser.parseHtml (p : Parser) : Option Expr × Parser :=
  (some (Expr.stringLiteral p.curToken p.curToken.literal false), p)

/-- Go: `parseEndOfCode` — likewise a `StringLiteral` with `Closed = false`
(its literal is the empty string). -/
def Parser.parseEndOfCode (p : Parser) : Option Expr × Parser :=
  (some (Expr.stringLiteral p.curToken p.curToken.literal false), p)

mutual

/-- Go: `ParseProgram`'s statement loop. -/
def Parser.parseProgramLoop : Nat → Parser → List Stmt × Parser
  | 0, p => ([], p)
  | fuel + 1, p =>
      if p.curTokenIs "EOF" then ([], p)
      else
        let (stmt, p1) := Parser.parseStatement fuel p
        let p2 := p1.nextToken
        let (rest, p3) := Parser.parseProgramLoop fuel p2
        match stmt with
        | some s => (s :: rest, p3)
        | none => (rest, p3)

/-- Go: `parseStatement`. -/
def Parser.parseStatement : Nat → Parser → Option Stmt × Parser
  | 0, p => (none, p)
  | fuel + 1, p =>
      if p.curTokenIs "var" then Parser.parseVarStatement fuel p
      else Parser.parseExpressionStatement fuel p

/-- Go: `parseVarStatement`. -/
def Parser.parseVarStatement : Nat → Parser → Option Stmt × Parser
  | 0, p => (none, p)
  | fuel + 1, p =>
      let tok := p.curToken
      let (ok1, p1) := p.expectPeek "IDENT"
      if !ok1 then (none, p1)
      else
        let nameTok := p1.curToken
        let (ok2, p2) := p1.expectPeek "="
        if !ok2 then (none, p2)
        else
          let p3 := p2.nextToken
          let (value, p4) := Parser.parseExpression 1 fuel p3
          let p5 := if p4.peekTokenIs ";" then p4.nextToken else p4
          (some (Stmt.varStmt tok nameTok.literal value), p5)

/-- Go: `parseExpressionStatement`. -/
def Parser.parseExpressionStatement : Nat → Parser → Option Stmt × Parser
  | 0, p => (none, p)
  | fuel + 1, p =>
      let tok := p.curToken
      let (e, p1) := Parser.parseExpression 1 fuel p
      let p2 := if p1.peekTokenIs ";" then p1.nextToken else p1
      (some (Stmt.exprStmt tok e), p2)

/-- Go: `parseExpression` — prefix dispatch, then the infix loop. -/
def Parser.parseExpression (prec : Nat) : Nat → Parser → Option Expr × Parser
  | 0, p => (none, p)
  | fuel + 1, p =>
      if hasPrefixFn p.curToken.type then
        let (leftExp, p1) := Parser.parsePrefixFn fuel p
        Parser.parseExpressionLoop prec fuel leftExp p1
      else (none, p.noPrefixParseFnError p.curToken)

/-- The `for !peekTokenIs(SEMICOLON) && precedence < peekPrecedence` loop
of `parseExpression`. -/
def Parser.parseExpressionLoop (prec : Nat) : Nat → Option Expr → Parser →
    Option Expr × Parser
  | 0, le, p => (le, p)
  | fuel + 1, leftExp, p =>
      if !(p.peekTokenIs ";") && prec < p.peekPrecedence then
        if hasInfixFn p.peekToken.type then
          let p1 := p.nextToken
          let (le2, p2) := Parser.parseInfixFn fuel leftExp p1
          Parser.parseExpressionLoop prec fuel le2 p2
        else (leftExp, p)
      else (leftExp, p)

/-- The prefix parselet table, dispatched on the current token type. -/
def Parser.parsePrefixFn : Nat → Parser → Option Expr × Parser
  | 0, p => (none, p)
  | fuel + 1, p =>
      let t := p.curToken.type
      if t == "IDENT" then p.parseIdentifier
      else if t == "INT" then p.parseIntegerLiteral
      else if t == "!" || t == "-" then Parser.parsePrefixExpression fuel p
      else if t == "true" || t == "false" then p.parseBoolean
      else if t == "(" then Parser.parseGroupedExpression fuel p
      else if t == "if" then Parser.parseIfExpression fuel p
      else if t == "STRING" then p.parseStringLiteral
      else if t == "[" then Parser.parseArrayLiteral fuel p
      else if t == "\x7b" then Parser.parseMapLiteral fuel p
      else if t == "for" then Parser.parseForExpression fuel p
      else if t == "HTML" then p.parseHtml
      else if t == "EOC" then p.parseEndOfCode
      else if t == "extends" then Parser.parseExtendsExpression fuel p
      else if t == "section" then Parser.parseSectionExpression fuel p
      else if t == "define" then Parser.parseDefineExpression fuel p
      else if t == "include" then Parser.parseIncludeExpression fuel p
      else (none, p)

/-- The infix parselet table, dispatched on the (already advanced) current
token type. -/
def Parser.parseInfixFn : Nat → Option Expr → Parser → Option Expr × Parser
  | 0, _, p => (none, p)
  | fuel + 1, left, p =>
      let t := p.curToken.type
      if t == "(" then Parser.parseCallExpression fuel left p
      else if t == "[" then Parser.parseIndexExpression fuel left p
      else if t == "." then Parser.parseDotExpression fuel left p
      else if t == "and" then Parser.parseAndExpression fuel left p
      else Parser.parseInfixExpression fuel left p

/-- Go: `parsePrefixExpression`. -/
def Parser.parsePrefixExpression : Nat → Parser → Option Expr × Parser
  | 0, p => (none, p)
  | fuel + 1, p =>
      let tok := p.curToken
      let op := p.curToken.literal
      let p1 := p.nextToken
      let (right, p2) := Parser.parseExpression 6 fuel p1
      (some (Expr.prefixExpr tok op right), p2)

/-- Go: `parseInfixExpression`. -/
def Parser.parseInfixExpression : Nat → Option Expr → Parser → Option Expr × Parser
  | 0, _, p => (none, p)
  | fuel + 1, left, p =>
      let tok := p.curToken
      let op := p.curToken.literal
      let prec := p.curPrecedence
      let p1 := p.nextToken
      let (right, p2) := Parser.parseExpression prec fuel p1
      (some (Expr.infixExpr tok left op right), p2)

/-- Go: `parseAndExpression` — the right-hand side is parsed at `LOWEST`
(not at `AND`). -/
def Parser.parseAndExpression : Nat → Option Expr → Parser → Option Expr × Parser
  | 0, _, p => (none, p)
  | fuel + 1, left, p =>
      let tok := p.curToken
      let op := p.curToken.literal
      let p1 := p.nextToken
      let (right, p2) := Parser.parseExpression 1 fuel p1
      (some (Expr.infixExpr tok left op right), p2)

/-- Go: `parseGroupedExpression`. -/
def Parser.parseGroupedExpression : Nat → Parser → Option Expr × Parser
  | 0, p => (none, p)
  | fuel + 1, p =>
      let p1 := p.nextToken
      let (exp, p2) := Parser.parseExpression 1 fuel p1
      let (ok, p3) := p2.expectPeek ")"
      if !ok then (none, p3) else (exp, p3)

/-- Go: `parseIfExpression` (no `else if`; the optional `else` arm re-uses
the `endif` terminator). -/
def Parser.parseIfExpression : Nat → Parser → Option Expr × Parser
  | 0, p => (none, p)
  | fuel + 1, p =>
      let tok := p.curToken
      let p1 := p.nextToken
      let (cond, p2) := Parser.parseExpression 1 fuel p1
      let (ok, p3) := p2.expectPeek "EOC"
      if !ok then (none, p3)
      else
        let (cons, p4) := Parser.parseBlockStatement ["endif", "else"] fuel p3
        if p4.curTokenIs "else" then
          let (ok2, p5) := p4.expectPeek "EOC"
          if !ok2 then (none, p5)
          else
            let (alt, p6) := Parser.parseBlockStatement ["endif"] fuel p5
            (some (Expr.ifExpr tok cond cons (some alt)), p6)
        else (some (Expr.ifExpr tok cond cons none), p4)

/-- Go: `parseBlockStatement` — consume statements until one of the
terminator types (or EOF) is the current token; the terminator itself is
left for the caller.  When the loop stopped at EOF instead of a terminator,
Go reports `peekError` for one arbitrary element of the terminator set (map
iteration order); the model picks the first of the list. -/
def Parser.parseBlockStatement (limits : List TokenType) : Nat → Parser →
    List Stmt × Parser
  | 0, p => ([], p)
  | fuel + 1, p =>
      let p1 := p.nextToken
      let (stmts, p2) := Parser.parseBlockLoop limits fuel p1
      if !(limits.contains p2.curToken.type) then
        match limits with
        | tok0 :: _ => (stmts, p2.peekError tok0)
        | [] => (stmts, p2)
      else (stmts, p2)

/-- The statement loop of `parseBlockStatement`. -/
def Parser.parseBlockLoop (limits : List TokenType) : Nat → Parser →
    List Stmt × Parser
  | 0, p => ([], p)
  | fuel + 1, p =>
      if p.curTokenIs "EOF" || limits.contains p.curToken.type then ([], p)
      else
        let (stmt, p1) := Parser.parseStatement fuel p
        let p2 := p1.nextToken
        let (rest, p3) := Parser.parseBlockLoop limits fuel p2
        match stmt with
        | some s => (s :: rest, p3)
        | none => (rest, p3)

/-- Go: `parseCallExpression`. -/
def Parser.parseCallExpression : Nat → Option Expr → Parser → Option Expr × Parser
  | 0, _, p => (none, p)
  | fuel + 1, function, p =>
      let tok := p.curToken
      let (args, p1) := Parser.parseExpressionList ")" fuel p
      (some (Expr.callExpr tok function args), p1)

/-- Go: `parseExpressionList` — a `nil` element (which always comes with a
recorded parse error, aborting the render before evaluation) is dropped, and
the `nil` list returned when the closing token is missing is the empty
list (again always accompanied by an error). -/
def Parser.parseExpressionList (endTok : TokenType) : Nat → Parser →
    List Expr × Parser
  | 0, p => ([], p)
  | fuel + 1, p =>
      if p.peekTokenIs endTok then ([], p.nextToken)
      else
        let p1 := p.nextToken
        let (e, p2) := Parser.parseExpression 1 fuel p1
        let (rest, p3) := Parser.parseExpressionListLoop endTok fuel p2
        match e with
        | some e0 => (e0 :: rest, p3)
        | none => (rest, p3)

/-- The `for peekTokenIs(COMMA)` loop of `parseExpressionList`, followed by
the final `expectPeek(end)`. -/
def Parser.parseExpressionListLoop (endTok : TokenType) : Nat → Parser →
    List Expr × Parser
  | 0, p => ([], p)
  | fuel + 1, p =>
      if p.peekTokenIs "," then
        let p1 := p.nextToken.nextToken
        let (e, p2) := Parser.parseExpression 1 fuel p1
        let (rest, p3) := Parser.parseExpressionListLoop endTok fuel p2
        match e with
        | some e0 => (e0 :: rest, p3)
        | none => (rest, p3)
      else
        let (ok, p1) := p.expectPeek endTok
        if !ok then ([], p1) else ([], p1)

/-- Go: `parseArrayLiteral`. -/
def Parser.parseArrayLiteral : Nat → Parser → Option Expr × Parser
  | 0, p => (none, p)
  | fuel + 1, p =>
      let tok := p.curToken
      let (elems, p1) := Parser.parseExpressionList "]" fuel p
      (some (Expr.arrayLit tok elems), p1)

/-- Go: `parseIndexExpression`. -/
def Parser.parseIndexExpression : Nat → Option Expr → Parser → Option Expr × Parser
  | 0, _, p => (none, p)
  | fuel + 1, left, p =>
      let tok := p.curToken
      let p1 := p.nextToken
      let (index, p2) := Parser.parseExpression 1 fuel p1
      let (ok, p3) := p2.expectPeek "]"
      if !ok then (none, p3)
      else (some (Expr.indexExpr tok left index), p3)

/-- Go: `parseMapLiteral` — pairs are keyed by AST node pointers in the
source, so every parsed pair is a fresh key; the model appends in parse
order.  A `nil` key or value always comes with a recorded parse error
(render aborts), and such a pair is dropped. -/
def Parser.parseMapLiteral : Nat → Parser → Option Expr × Parser
  | 0, p => (none, p)
  | fuel + 1, p =>
      let tok := p.curToken
      let (pairs, ok, p1) := Parser.parseMapPairsLoop fuel p
      if !ok then (none, p1)
      else
        let (ok2, p2) := p1.expectPeek "\x7d"
        if !ok2 then (none, p2)
        else (some (Expr.mapLit tok pairs), p2)

/-- The `for !peekTokenIs(RBRACE)` loop of `parseMapLiteral`; the boolean
is false when the loop bailed out with `return nil`. -/
def Parser.parseMapPairsLoop : Nat → Parser →
    (List (Expr × Expr) × Bool × Parser)
  | 0, p => ([], true, p)
  | fuel + 1, p =>
      if p.peekTokenIs "\x7d" then ([], true, p)
      else
        let p1 := p.nextToken
        let (key, p2) := Parser.parseExpression 1 fuel p1
        let (okc, p3) := p2.expectPeek ":"
        if !okc then ([], false, p3)
        else
          let p4 := p3.nextToken
          let (value, p5) := Parser.parseExpression 1 fuel p4
          if !(p5.peekTokenIs "\x7d") then
            let (okcomma, p6) := p5.expectPeek ","
            if !okcomma then ([], false, p6)
            else
              let (rest, okr, p7) := Parser.parseMapPairsLoop fuel p6
              match key, value with
              | some k, some v => ((k, v) :: rest, okr, p7)
              | _, _ => (rest, okr, p7)
          else
            let (rest, okr, p6) := Parser.parseMapPairsLoop fuel p5
            match key, value with
            | some k, some v => ((k, v) :: rest, okr, p6)
            | _, _ => (rest, okr, p6)

/-- Go: `parseForExpression` — `for v in e` binds only the value name
(key empty); `for k, v in e` binds both. -/
def Parser.parseForExpression : Nat → Parser → Option Expr × Parser
  | 0, p => (none, p)
  | fuel + 1, p =>
      let tok := p.curToken
      let (ok1, p1) := p.expectPeek "IDENT"
      if !ok1 then (none, p1)
      else
        let key0 := p1.curToken.literal
        if p1.peekTokenIs "," then
          let pa := p1.nextToken
          let (okv, pb) := pa.expectPeek "IDENT"
          if !okv then (none, pb)
          else Parser.parseForTail tok key0 pb.curToken.literal fuel pb
        else Parser.parseForTail tok "" key0 fuel p1

/-- The common tail of `parseForExpression` once the iteration names are
known: `in`, the iterand expression, and the `endfor` block. -/
def Parser.parseForTail (tok : Token) (key valueName : String) :
    Nat → Parser → Option Expr × Parser
  | 0, p => (none, p)
  | fuel + 1, p =>
      let (okin, p1) := p.expectPeek "in"
      if !okin then (none, p1)
      else
        let p2 := p1.nextToken
        let (inE, p3) := Parser.parseExpression 1 fuel p2
        let (block, p4) := Parser.parseBlockStatement ["endfor"] fuel p3
        (some (Expr.forExpr tok key valueName inE block), p4)

/-- Go: `parseExtendsExpression` — the target is the string token's
literal, quotes included. -/
def Parser.parseExtendsExpression : Nat → Parser → Option Expr × Parser
  | 0, p => (none, p)
  | _ + 1, p =>
      let tok := p.curToken
      let (ok1, p1) := p.expectPeek "("
      if !ok1 then (none, p1)
      else
        let (ok2, p2) := p1.expectPeek "STRING"
        if !ok2 then (none, p2)
        else
          let fromName := p2.curToken.literal
          let (ok3, p3) := p2.expectPeek ")"
          if !ok3 then (none, p3)
          else
            let (ok4, p4) := p3.expectPeek "EOC"
            if !ok4 then (none, p4)
            else (some (Expr.extendsStmt tok fromName), p4)

/-- Go: `parseSectionExpression`. -/
def Parser.parseSectionExpression : Nat → Parser → Option Expr × Parser
  | 0, p => (none, p)
  | fuel + 1, p =>
      let tok := p.curToken
      let (ok1, p1) := p.expectPeek "("
      if !ok1 then (none, p1)
      else
        let (ok2, p2) := p1.expectPeek "STRING"
        if !ok2 then (none, p2)
        else
          let name := p2.curToken.literal
          let (ok3, p3) := p2.expectPeek ")"
          if !ok3 then (none, p3)
          else
            let (ok4, p4) := p3.expectPeek "EOC"
            if !ok4 then (none, p4)
            else
              let (block, p5) := Parser.parseBlockStatement ["endsection"] fuel p4
              (some (Expr.sectionStmt tok name block), p5)

/-- Go: `parseDefineExpression`. -/
def Parser.parseDefineExpression : Nat → Parser → Option Expr × Parser
  | 0, p => (none, p)
  | fuel + 1, p =>
      let tok := p.curToken
      let (ok1, p1) := p.expectPeek "("
      if !ok1 then (none, p1)
      else
        let (ok2, p2) := p1.expectPeek "STRING"
        if !ok2 then (none, p2)
        else
          let name := p2.curToken.literal
          let (ok3, p3) := p2.expectPeek ")"
          if !ok3 then (none, p3)
          else
            let (ok4, p4) := p3.expectPeek "EOC"
            if !ok4 then (none, p4)
            else
              let (content, p5) := Parser.parseBlockStatement ["end"] fuel p4
              (some (Expr.defineStmt tok name content), p5)

/-- Go: `parseIncludeExpression` — optional second argument, no trailing
`EOC` check. -/
def Parser.parseIncludeExpression : Nat → Parser → Option Expr × Parser
  | 0, p => (none, p)
  | fuel + 1, p =>
      let tok := p.curToken
      let (ok1, p1) := p.expectPeek "("
      if !ok1 then (none, p1)
      else
        let (ok2, p2) := p1.expectPeek "STRING"
        if !ok2 then (none, p2)
        else
          let file := p2.curToken.literal
          let (vars, p3) :=
            if p2.peekTokenIs "," then
              let pa := p2.nextToken.nextToken
              Parser.parseExpression 1 fuel pa
            else (none, p2)
          let (ok3, p4) := p3.expectPeek ")"
          if !ok3 then (none, p4)
          else (some (Expr.includeStmt tok file vars), p4)

/-- Go: `parseDotExpression` — the left operand must be an identifier;
calling `TokenLiteral()` on a `nil` left operand panics (`crashed`). -/
def Parser.parseDotExpression : Nat → Option Expr → Parser → Option Expr × Parser
  | 0, _, p => (none, p)
  | _ + 1, left, p =>
      let tok := p.curToken
      match left with
      | none => (none, { p with crashed := true })
      | some (Expr.identifier ltok lname) =>
          let (ok, p1) := p.expectPeek "IDENT"
          if !ok then (none, p1)
          else (some (Expr.dotExpr tok ltok lname p1.curToken p1.curToken.literal), p1)
      | some other => (none, p.lastTokenError "IDENT" other.tokenLiteral)

end

/-- Go: `ParseProgram` (a `Program` is its statement list; the typed-nil
statements a failed `parseVarStatement` appends are dropped — they always
come with a recorded parse error, which aborts the render before
evaluation). -/
def Parser.parseProgram (fuel : Nat) (p : Parser) : List Stmt × Parser :=
  Parser.parseProgramLoop fuel p

/-! ## The loader (`internal/internal.go`) -/

/-- The ambient state `LoadFile` reads: the two environment variables, the
template files on disk (keyed by full path) and the render-cache state.
`cacheExpired` is the comparison of the cache file's modification time
against `GOVEL_LAMB_CACHE_TIME`. -/
structure FS where
  baseDir : String
  cacheDir : String
  files : String → Option String
  cacheStatExists : String → Bool
  cacheExpired : String → Bool
  cacheRead : String → Option String

/-- `strings.ReplaceAll(fileName, ".", "/")`. -/
def replaceDots (name : String) : String :=
  String.mk (name.data.map (fun c => if c == '.' then '/' else c))

/-- Setting the caller-supplied vars into the environment
(`for key, value := range vars`; insertion order stands in for Go's map
iteration order). -/
def setVars : List (String × Value) → Env → Env
  | [], env => env
  | (k, v) :: rest, env => setVars rest (env.set k v)

/-- Parser fuel that no template of interest ever exhausts (the recursion
depth of the Pratt parser is bounded by the token count). -/
def parserFuel (content : String) : Nat := (content.length + 8) * 8

/-- Go: `internal.LoadFile` — resolve the path, seed the vars, consult the
render cache, read + lex + parse the file (aborting on the first parse
error), evaluate the program, and either return the evaluation error or
the bytes written to the writer.  The fire-and-forget goroutine that
writes the render cache back after the response is flushed changes nothing
observable about the returned result and has no counterpart here, and
`os.Remove` of an expired cache entry is likewise unobservable in a single
render.  The fuel bounds the `extends`/`include` re-entry depth. -/
def LoadFile (fs : FS) : Nat → String → List (String × Value) → Env →
    Option (Except String (String × Env))
  | 0, _, _, _ => none
  | fuel + 1, fileName, vars, env =>
      let file := fs.baseDir ++ replaceDots fileName ++ ".lamb.html"
      let env := setVars vars env
      let cache :=
        match storeGet vars "__cache" with
        | some (Value.vString s) => s
        | _ => ""
      let cacheFile := fs.cacheDir ++ "/" ++ fileName
      let proceed : Env → Option (Except String (String × Env)) := fun env =>
        let env := env.withFileName file
        match fs.files file with
        | none => some (Except.error ("open " ++ file ++ ": no such file or directory"))
        | some content =>
            let p := Parser.new (Lexer.new content)
            let (stmts, p2) := Parser.parseProgram (parserFuel content) p
            if p2.crashed then none
            else
              match p2.errors with
              | e :: _ => some (Except.error (file ++ ": " ++ e ++ "\n"))
              | [] =>
                  match evalProgram (fun nm env2 => LoadFile fs fuel nm [] env2)
                      (content.length + 32) stmts env with
                  | none => none
                  | some (v, envF) =>
                      if isErrorValue v then some (Except.error (errMsg v))
                      else some (Except.ok (formatValue v, envF))
      if fs.cacheStatExists cacheFile && cache != "" then
        if fs.cacheExpired cacheFile then proceed env
        else
          match fs.cacheRead cacheFile with
          | none => some (Except.error ("open " ++ cacheFile ++ ": no such file or directory"))
          | some content => some (Except.ok (content, env))
      else proceed env

/-! ## Fixtures and specification functions used by the theorems below -/

/-- The output-or-error part of a loader result (what the driver observes:
the bytes written to the writer on `Except.ok`, the returned `error`
otherwise). -/
def loadOutput : Option (Except String (String × Env)) → Option (Except String String)
  | none => none
  | some (Except.error m) => some (Except.error m)
  | some (Except.ok (out, _)) => some (Except.ok out)

/-- A token with the Go zero-value position, for hand-built AST nodes. -/
def tok0 : Token := ⟨"", "", 0, 0⟩

/-- A loader stub for evaluations that never re-enter the loader. -/
def LNone : Loader := fun _ _ => none

/-- The demonstration template files (note that the parser stores `extends`
/`include` targets with their surrounding quotes, so the file the engine
opens for `include("row", …)` is literally named `"row".lamb.html`). -/
def demoFiles : List (String × String) :=
  [("index.lamb.html", "<h1>Hi</h1>"),
   ("v.lamb.html", "\x7b? x ?\x7d"),
   ("s.lamb.html", "\x7b? \x22hi\x22 ?\x7d"),
   ("\x22row\x22.lamb.html", "\x7b? name ?\x7d")]

/-- A filesystem holding the demonstration templates, with an empty base
directory and no render cache. -/
def demoFS : FS :=
  { baseDir := "", cacheDir := "",
    files := fun p => storeGet demoFiles p,
    cacheStatExists := fun _ => false, cacheExpired := fun _ => false,
    cacheRead := fun _ => none }

/-- The loader over `demoFS` (re-entry depth 4). -/
def demoLoader : Loader := fun nm env => LoadFile demoFS 4 nm [] env

/-- The parsed argument map of `include("row", {"name": "a"})` (tokens as
produced by the lexer on the caller template: literals keep their quotes,
`Closed` is the parser's zero value `false`). -/
def incPairs : List (Expr × Expr) :=
  [(Expr.stringLiteral ⟨"STRING", "\x22name\x22", 20, 1⟩ "\x22name\x22" false,
    Expr.stringLiteral ⟨"STRING", "\x22a\x22", 28, 1⟩ "\x22a\x22" false)]

/-- The `for i, x in [10, 20]` node used to witness the loop theorem. -/
def forDemo : Expr :=
  Expr.forExpr tok0 "i" "x"
    (some (Expr.arrayLit tok0 [Expr.integerLiteral tok0 10, Expr.integerLiteral tok0 20]))
    [Stmt.exprStmt tok0 (some (Expr.identifier tok0 "x"))]

/-- Modelled from the claim (C8): `for k, v in xs` over a sequence of
length n evaluates the body exactly n times, on iteration i binding k to
the integer i and v to `xs[i]` before the body runs, concatenates the
per-iteration renderings in index order, and after the loop removes both k
and v from the environment.  `render` is the body renderer; an error result
stops the loop (without the removals), and a non-string body rendering is
impossible for real blocks. -/
def forLoopSpec (render : Env → Res) (key valueName : String) :
    List Value → Nat → String → Env → Res
  | [], _, out, env => some (Value.vString out, (env.delete valueName).delete key)
  | x :: rest, i, out, env =>
      match render ((env.set valueName x).set key (Value.vInt i)) with
      | none => none
      | some (res, env2) =>
          if isErrorValue res then some (res, env2)
          else
            match res with
            | Value.vString s => forLoopSpec render key valueName rest (i + 1) (out ++ s) env2
            | _ => none

/-! # Theorems

The claims of the specification, settled against the embedding above. -/

/-- C1: the specification claims each byte of HTML outside code regions is
emitted exactly once, in source order — in particular that `<h1>Hi</h1>`
renders as `<h1>Hi</h1>`.  On the code this fails: `parseHtml` builds
`StringLiteral` nodes, the `Closed` field is never assigned anywhere (zero
value `false`), so the very first HTML byte evaluates to the
`unclosed string literal` error, `evalProgram` stringifies it with the file
prefix, and the render's entire output is that error text instead of the
HTML. -/
theorem literal_template_renders_error_text :
    loadOutput (LoadFile demoFS 5 "index" [] NewEnvironment)
      = some (Except.ok "index.lamb.html: 1: 1: unclosed string literal") ∧
    "index.lamb.html: 1: 1: unclosed string literal" ≠ "<h1>Hi</h1>" :=
  ⟨rfl, by decide⟩

/-- C2 (counterexample): rendering the template `{? x ?}` — whose only
statement evaluates to the error `identifier not found: x` — makes
`LoadFile` return `ok` (the driver receives no error) and WRITE the
file-prefixed error text to the output writer, because `evalProgram`
returns the error as a formatted string rather than as an error value. -/
theorem eval_error_is_rendered_not_returned :
    loadOutput (LoadFile demoFS 5 "v" [] NewEnvironment)
      = some (Except.ok "v.lamb.html: 1: 4: identifier not found: x") := rfl

/-- C2 (amended): when a statement of a program evaluates to an error
value, evaluation stops at that statement (the remaining statements are
discarded — the result does not depend on `rest`), and the program's result
is the STRING `"<file>: <message>"`; it is not an error value, so the
driver's `isError` check does not fire and the text becomes the render's
output. -/
theorem evalProgram_error_stops_and_prefixes (L : Loader) (fuel : Nat)
    (s : Stmt) (rest : List Stmt) (env env2 : Env) (m : String)
    (h : EvalStmt L fuel s env = some (Value.vError m, env2)) :
    evalProgram L fuel (s :: rest) env
      = some (Value.vString (env2.fileName ++ ": " ++ m), env2) := by
  simp only [evalProgram, evalProgramStmts, h, isErrorValue, errMsg, if_pos]

/-- C2 (witness): the amended statement at the concrete statement
`{? x ?}` in an empty environment. -/
theorem evalProgram_error_stops_witness :
    EvalStmt LNone 3 (Stmt.exprStmt tok0 (some (Expr.identifier tok0 "x"))) NewEnvironment
      = some (Value.vError "0: 0: identifier not found: x", NewEnvironment) ∧
    evalProgram LNone 3
        [Stmt.exprStmt tok0 (some (Expr.identifier tok0 "x")),
         Stmt.exprStmt tok0 (some (Expr.integerLiteral tok0 1))] NewEnvironment
      = some (Value.vString (NewEnvironment.fileName ++ ": " ++ "0: 0: identifier not found: x"),
          NewEnvironment) :=
  ⟨rfl, evalProgram_error_stops_and_prefixes LNone 3 _ _ _ _ _ rfl⟩

/-- C3: the specification claims a string literal terminated by its
closing quote evaluates to its contents, and `unclosed string literal` is
reported exactly for unterminated literals.  On the code this fails: the
lexer records no termination information and neither `parseStringLiteral`
nor anything else ever assigns `Closed`, so the flag is `false` for every
string literal and even the terminated `"hi"` evaluates to the
`unclosed string literal` error (shown at the parse level, at the node
level, and through the full render of `{? "hi" ?}`). -/
theorem closed_string_literal_still_errors :
    (Parser.parseProgram 200 (Parser.new (Lexer.new "\x7b? \x22hi\x22 ?\x7d"))).1
      = [Stmt.exprStmt ⟨"STRING", "\x22hi\x22", 4, 1⟩
           (some (Expr.stringLiteral ⟨"STRING", "\x22hi\x22", 4, 1⟩ "\x22hi\x22" false)),
         Stmt.exprStmt ⟨"EOC", "", 10, 1⟩
           (some (Expr.stringLiteral ⟨"EOC", "", 10, 1⟩ "" false))] ∧
    Eval LNone 2 (Expr.stringLiteral ⟨"STRING", "\x22hi\x22", 4, 1⟩ "\x22hi\x22" false)
        NewEnvironment
      = some (Value.vError "1: 4: unclosed string literal", NewEnvironment) ∧
    loadOutput (LoadFile demoFS 5 "s" [] NewEnvironment)
      = some (Except.ok "s.lamb.html: 1: 4: unclosed string literal") :=
  ⟨rfl, rfl, rfl⟩

/-- C5: the specification claims `l and r` is false iff an operand is
falsy (with all non-falsy values, integers included, truthy) and that `r`
is not evaluated when `l` is falsy.  On the code all three parts fail:
the boolean falsy test of the left-operand branch inspects `right` (a
copy-paste slip), so `false and true` yields `true`; two integer operands
are captured by the numeric branch first and yield an
`unknown operator` error; and `Eval` evaluates both operands before
dispatching, so the right operand's error surfaces even when the left
operand is falsy. -/
theorem and_operator_divergences :
    evalInfixExpression "and" (Value.vBool false) (Value.vBool true) tok0
      = some (Value.vBool true) ∧
    evalInfixExpression "and" (Value.vInt 1) (Value.vInt 2) tok0
      = some (Value.vError "0: 0: unknown operator: int and int") ∧
    Eval LNone 3 (Expr.infixExpr tok0 (some (Expr.booleanLit tok0 false)) "and"
        (some (Expr.identifier tok0 "z"))) NewEnvironment
      = some (Value.vError "0: 0: identifier not found: z", NewEnvironment) :=
  ⟨rfl, rfl, rfl⟩

/-- C4: the specification claims `include(file, {k: v, …})` renders the
sub-template in a fresh environment binding exactly the given key names,
each resolvable as an identifier there.  On the code the freshness and the
"nothing else" part hold, but the binding key is `key.String()` — the
string literal's TOKEN text, quotes included — so the environment of
`include("row", {"name": "a"})` binds the five-character name `"name"`,
the identifier `name` in the sub-template does not resolve, and the
sub-render emits `identifier not found: name`.  (The bound value is
moreover the `unclosed string literal` error that evaluating `"a"` yields,
stored unchecked.) -/
theorem include_binds_quoted_keys :
    evalIncludeSeed (Eval LNone 3) incPairs NewEnvironment NewEnvironment
      = some (NewEnvironment.set "\x22name\x22"
                (Value.vError "1: 28: unclosed string literal"),
              NewEnvironment) ∧
    (NewEnvironment.set "\x22name\x22"
        (Value.vError "1: 28: unclosed string literal")).get "name" = none ∧
    evalIdentifier "name" tok0
        (NewEnvironment.set "\x22name\x22" (Value.vError "1: 28: unclosed string literal"))
      = Value.vError "0: 0: identifier not found: name" ∧
    (Eval demoLoader 9
        (Expr.includeStmt tok0 "\x22row\x22" (some (Expr.mapLit tok0 incPairs)))
        NewEnvironment).map Prod.fst
      = some (Value.vString "\x22row\x22.lamb.html: 1: 4: identifier not found: name") :=
  ⟨rfl, rfl, rfl, rfl⟩

/-- C6: the specification claims a second `extends`, a `section` inside
another section's block, and a `define` inside another define's content
are each rejected with an error.  The first part holds, but the
`InSection` and `InDefine` flags the other two guards test are never set
to `true` anywhere in the source, so both guards are dead: the nested
section is simply recorded alongside the outer one (no error, both in the
sections map), and the nested define's content is evaluated as usual. -/
theorem nested_section_and_define_not_rejected :
    Eval LNone 2 (Expr.extendsStmt tok0 "\x22p\x22") (NewEnvironment.withInExtends true)
      = some (Value.vError "0: 0: nested extends are not allowed",
          NewEnvironment.withInExtends true) ∧
    Eval LNone 6 (Expr.sectionStmt tok0 "\x22a\x22"
        [Stmt.exprStmt tok0 (some (Expr.sectionStmt ⟨"section", "section", 9, 2⟩ "\x22b\x22" []))])
        (NewEnvironment.withInExtends true)
      = some (Value.vNil,
          (NewEnvironment.withInExtends true).withExtendsFrom
            ⟨[("\x22b\x22", ⟨⟨"section", "section", 9, 2⟩, "\x22b\x22", Value.vString ""⟩),
              ("\x22a\x22", ⟨tok0, "\x22a\x22", Value.vString ""⟩)], ""⟩) ∧
    Eval LNone 6 (Expr.defineStmt tok0 "\x22x\x22"
        [Stmt.exprStmt tok0 (some (Expr.defineStmt tok0 "\x22y\x22" []))])
        (NewEnvironment.withInExtends true)
      = some (Value.vString "", NewEnvironment.withInExtends true) :=
  ⟨rfl, rfl, rfl⟩

/-- C7 (counterexample): the claim says unary minus negates every operand
satisfying the broad integer predicate `isNumber` — which accepts the
`int64` values builtins such as `len` return — but
`evalMinusPrefixOperatorExpression` checks the dynamic type string against
exactly `"int"`, so the `int64` value 2 satisfies the predicate yet
produces the `unknown operator` error instead of `-2`. -/
theorem minus_rejects_int64 :
    (isNumber (Value.vInt64 2)).2 = true ∧
    evalMinusPrefixOperatorExpression (Value.vInt64 2) tok0
      = Value.vError "0: 0: unknown operator: -int64" :=
  ⟨rfl, rfl⟩

/-- C7 (amended): unary minus is defined exactly on operands of dynamic
type `int`, returning the two's-complement negation; every other operand —
including the 64-bit integers returned by builtins such as `len` — yields
the error `unknown operator: -<type>`. -/
theorem minus_defined_exactly_on_int :
    (∀ (n : Int) (t : Token),
      evalMinusPrefixOperatorExpression (Value.vInt n) t = Value.vInt (wrap64 (-n))) ∧
    (∀ (v : Value) (t : Token), (∀ n, v ≠ Value.vInt n) →
      evalMinusPrefixOperatorExpression v t
        = newError t ("unknown operator: -" ++ typeString v)) := by
  constructor
  · intro n t; rfl
  · intro v t hv
    cases v with
    | vInt n => exact absurd rfl (hv n)
    | vNil => rfl
    | vBool _ => rfl
    | vInt64 _ => rfl
    | vString _ => rfl
    | vArray _ => rfl
    | vIntSlice _ => rfl
    | vMap _ => rfl
    | vBuiltin _ => rfl
    | vHostFunc _ => rfl
    | vError _ => rfl

/-- C7 (witness): the amended statement at the concrete operands `5 : int`
and the string `"q"`. -/
theorem minus_defined_exactly_on_int_witness :
    evalMinusPrefixOperatorExpression (Value.vInt 5) tok0 = Value.vInt (wrap64 (-5)) ∧
    evalMinusPrefixOperatorExpression (Value.vString "q") tok0
      = newError tok0 ("unknown operator: -" ++ typeString (Value.vString "q")) :=
  ⟨minus_defined_exactly_on_int.1 5 tok0,
   minus_defined_exactly_on_int.2 (Value.vString "q") tok0
     (fun _ h => Value.noConfusion h)⟩

/-- `mapLookup` finds nothing exactly when no stored key compares equal to
the probe. -/
theorem mapLookup_eq_none (pairs : List (Value × Value)) (k : Value) :
    mapLookup pairs k = none ↔ ∀ p ∈ pairs, primEq p.1 k = false := by
  induction pairs with
  | nil => simp [mapLookup]
  | cons p rest ih =>
      by_cases h : primEq p.1 k
      · simp [mapLookup, h]
      · simp only [Bool.not_eq_true] at h
        simp [mapLookup, h, ih]

/-- C9 (counterexample): the claim says indexing a map with a missing key
yields `nil` — but with an uncomparable key (here an empty sequence, which
matches no entry of any map) `reflect.Value.MapIndex` panics with "hash of
unhashable type" instead of yielding `nil`. -/
theorem map_index_unhashable_key_panics :
    evalIndexExpression (Value.vMap []) (Value.vArray []) tok0 = none := rfl

/-- C9 (amended): indexing a sequence with an `int` yields the element in
range and `nil` (also for every negative index) out of range; indexing a
map with a key of comparable dynamic type yields the stored value, or
`nil` when no key compares equal; indexing a map with an uncomparable key
is a runtime panic (see the counterexample); and every remaining
combination — including a sequence indexed by an `int64` — yields the
`index operator not supported` error. -/
theorem index_operator_semantics :
    (∀ (elems : List Value) (i : Int) (t : Token),
      evalIndexExpression (Value.vArray elems) (Value.vInt i) t
        = some (if 0 ≤ i ∧ i < (elems.length : Int)
                then elems.getD i.toNat Value.vNil else Value.vNil)) ∧
    (∀ (pairs : List (Value × Value)) (k : Value) (t : Token),
      isUncomparableKind k = false →
      evalIndexExpression (Value.vMap pairs) k t
        = some ((mapLookup pairs k).getD Value.vNil)) ∧
    (∀ (pairs : List (Value × Value)) (k : Value) (t : Token),
      isUncomparableKind k = false →
      (∀ p ∈ pairs, primEq p.1 k = false) →
      evalIndexExpression (Value.vMap pairs) k t = some Value.vNil) ∧
    (∀ (left index : Value) (t : Token),
      (match left, index with
       | Value.vArray _, Value.vInt _ => False
       | Value.vIntSlice _, Value.vInt _ => False
       | Value.vMap _, _ => False
       | _, _ => True) →
      evalIndexExpression left index t
        = some (newError t ("index operator not supported: " ++ kindString left))) := by
  refine ⟨?_, ?_, ?_, ?_⟩
  · intro elems i t
    simp only [evalIndexExpression, evalArrayIndexExpression, Bool.or_eq_true,
      decide_eq_true_eq, Option.some.injEq]
    split_ifs <;> first | rfl | omega
  · intro pairs k t hk
    cases k <;> simp_all [evalIndexExpression, evalMapIndexExpression, isUncomparableKind]
  · intro pairs k t hk hmiss
    have hnone : mapLookup pairs k = none := (mapLookup_eq_none pairs k).mpr hmiss
    cases k <;> simp_all [evalIndexExpression, evalMapIndexExpression, isUncomparableKind]
  · intro left index t h
    cases left <;> cases index <;> first | rfl | exact absurd h (by simp)

/-- C9 (witness): the amended statement at concrete inputs — an in-range
and a negative sequence index, a present and a missing comparable map key,
and a string as the left operand. -/
theorem index_operator_semantics_witness :
    evalIndexExpression (Value.vArray [Value.vInt 7]) (Value.vInt 0) tok0
      = some (Value.vInt 7) ∧
    evalIndexExpression (Value.vArray [Value.vInt 7]) (Value.vInt (-1)) tok0
      = some Value.vNil ∧
    evalIndexExpression (Value.vMap [(Value.vString "k", Value.vInt 1)])
        (Value.vString "k") tok0 = some (Value.vInt 1) ∧
    evalIndexExpression (Value.vMap [(Value.vString "k", Value.vInt 1)])
        (Value.vString "z") tok0 = some Value.vNil ∧
    evalIndexExpression (Value.vString "ab") (Value.vInt 0) tok0
      = some (Value.vError "0: 0: index operator not supported: string") := by
  refine ⟨?_, ?_, ?_, ?_, ?_⟩
  · simpa using index_operator_semantics.1 [Value.vInt 7] 0 tok0
  · simpa using index_operator_semantics.1 [Value.vInt 7] (-1) tok0
  · simpa using index_operator_semantics.2.1 [(Value.vString "k", Value.vInt 1)]
      (Value.vString "k") tok0 rfl
  · simpa using index_operator_semantics.2.2.1 [(Value.vString "k", Value.vInt 1)]
      (Value.vString "z") tok0 rfl (by simp [primEq])
  · simpa using index_operator_semantics.2.2.2 (Value.vString "ab") (Value.vInt 0) tok0
      trivial

/-- `wrap64` is the identity on the signed 64-bit range. -/
theorem wrap64_eq_self {n : Int} (h1 : int64Min ≤ n) (h2 : n ≤ int64Max) :
    wrap64 n = n := by
  simp only [wrap64, int64Min, int64Max] at *
  omega

/-- C10 (counterexample): the claim says `l / r` returns the truncated
quotient for every `r ≠ 0`, but at `l = -2^63`, `r = -1` the truncated
quotient `2^63` overflows and the code returns `-2^63` (Go defines this
quotient to wrap). -/
theorem division_minint_by_neg_one_wraps :
    evalIntegerInfixExpression "/" int64Min (-1) tok0 = some (Value.vInt int64Min) ∧
    Int.tdiv int64Min (-1) ≠ int64Min := by
  refine ⟨rfl, by decide⟩

/-- C10 (amended): integer division is unguarded — for 64-bit operands
with `r ≠ 0` it returns the truncated quotient except at the single
overflow corner `(-2^63) / -1` (which wraps back to `-2^63`), and for a
zero divisor no error value is produced: evaluation is a runtime panic
(`none`), so `r ≠ 0` is necessary for the evaluator to produce a value. -/
theorem division_unguarded :
    (∀ (l r : Int) (t : Token), inRange64 l → inRange64 r → r ≠ 0 →
      ¬(l = int64Min ∧ r = -1) →
      evalIntegerInfixExpression "/" l r t = some (Value.vInt (Int.tdiv l r))) ∧
    (∀ (l : Int) (t : Token), evalIntegerInfixExpression "/" l 0 t = none) := by
  constructor
  · intro l r t h1 h2 hr hc
    have hq : evalIntegerInfixExpression "/" l r t
        = some (Value.vInt (wrap64 (Int.tdiv l r))) := by
      simp only [evalIntegerInfixExpression]
      rw [if_neg (by decide), if_neg (by decide), if_neg (by decide),
        if_pos (by decide), if_neg hr]
    rw [hq]
    have habs : (Int.tdiv l r).natAbs = l.natAbs / r.natAbs := Int.natAbs_tdiv l r
    have hle : l.natAbs / r.natAbs ≤ l.natAbs := Nat.div_le_self _ _
    simp only [inRange64, int64Min, int64Max] at h1 h2
    have hla : l.natAbs ≤ 2 ^ 63 := by omega
    have hqa : (Int.tdiv l r).natAbs ≤ 2 ^ 63 := by omega
    by_cases hcorner : (Int.tdiv l r).natAbs = 2 ^ 63
    · -- only reachable at `l = -2^63`, `r = ±1`; `r = -1` is excluded
      have hla2 : l.natAbs = 2 ^ 63 := by omega
      have hdiv : l.natAbs / r.natAbs = l.natAbs := by omega
      have hone : r.natAbs = 1 := by
        rcases Nat.div_eq_self.mp hdiv with h0 | h1r
        · omega
        · exact h1r
      have hl : l = int64Min := by simp only [int64Min]; omega
      have hr1 : r = 1 := by
        have : r = 1 ∨ r = -1 := by omega
        rcases this with h | h
        · exact h
        · exact absurd ⟨hl, h⟩ hc
      rw [hr1, Int.tdiv_one]
      rw [wrap64_eq_self (by simp only [int64Min]; omega) (by simp only [int64Max]; omega)]
    · rw [wrap64_eq_self (by simp only [int64Min]; omega) (by simp only [int64Max]; omega)]
  · intro l t; rfl

/-- C10 (witness): the amended statement at `7 / -2` (truncation toward
zero) and at the zero divisor `5 / 0`. -/
theorem division_unguarded_witness :
    evalIntegerInfixExpression "/" 7 (-2) tok0 = some (Value.vInt (Int.tdiv 7 (-2))) ∧
    evalIntegerInfixExpression "/" 5 0 tok0 = none :=
  ⟨division_unguarded.1 7 (-2) tok0 (by decide) (by decide) (by decide) (by decide),
   division_unguarded.2 5 tok0⟩

/-- An absent key stays absent through `storeGet`. -/
theorem storeGet_eq_none_of_not_mem {α : Type} (s : List (String × α)) (k : String)
    (h : k ∉ s.map Prod.fst) : storeGet s k = none := by
  induction s with
  | nil => rfl
  | cons p rest ih =>
      cases p with
      | mk k0 v0 =>
          simp only [List.map_cons, List.mem_cons, not_or] at h
          have hne : (k0 == k) = false := beq_eq_false_iff_ne.mpr (Ne.symm h.1)
          simp only [storeGet, hne, Bool.false_eq_true, if_false]
          exact ih h.2

/-- Deleting one key never makes another key appear. -/
theorem storeGet_storeDelete_of_none {α : Type} (s : List (String × α)) (k k2 : String)
    (h : storeGet s k2 = none) : storeGet (storeDelete s k) k2 = none := by
  induction s with
  | nil => rfl
  | cons p rest ih =>
      cases p with
      | mk k0 v0 =>
          simp only [storeGet] at h
          by_cases h2 : (k0 == k2) = true
          · rw [if_pos h2] at h; exact absurd h (by simp)
          · rw [if_neg h2] at h
            simp only [storeDelete]
            by_cases h1 : (k0 == k) = true
            · rw [if_pos h1]; exact h
            · rw [if_neg h1]
              simp only [storeGet]
              rw [if_neg h2]
              exact ih h

/-- `storeDelete` keeps a sublist of the entries. -/
theorem storeDelete_sublist {α : Type} (s : List (String × α)) (k : String) :
    List.Sublist (storeDelete s k) s := by
  induction s with
  | nil => simp [storeDelete]
  | cons p rest ih =>
      cases p with
      | mk k0 v0 =>
          simp only [storeDelete]
          by_cases h1 : (k0 == k) = true
          · rw [if_pos h1]; exact List.sublist_cons_self _ _
          · rw [if_neg h1]; exact List.Sublist.cons₂ _ ih

/-- On a store with no duplicate keys (the invariant every Go map and hence
every reachable environment store satisfies), deleting a key unbinds it. -/
theorem storeGet_storeDelete_self {α : Type} (s : List (String × α)) (k : String)
    (h : (s.map Prod.fst).Nodup) : storeGet (storeDelete s k) k = none := by
  induction s with
  | nil => rfl
  | cons p rest ih =>
      cases p with
      | mk k0 v0 =>
          simp only [List.map_cons, List.nodup_cons] at h
          simp only [storeDelete]
          by_cases h1 : (k0 == k) = true
          · rw [if_pos h1]
            have : k ∉ rest.map Prod.fst := by
              have hk0 : k0 = k := by simpa using h1
              simpa [hk0] using h.1
            exact storeGet_eq_none_of_not_mem rest k this
          · rw [if_neg h1]
            simp only [storeGet]
            rw [if_neg h1]
            exact ih h.2

/-- `Delete` leaves the outer pointer alone. -/
theorem Env.delete_outer (e : Env) (k : String) : (e.delete k).outer = e.outer := by
  cases e; rfl

/-- The store of `Delete`. -/
theorem Env.delete_store (e : Env) (k : String) :
    (e.delete k).store = storeDelete e.store k := by
  cases e; rfl

/-- With no outer environment, `Get` is the local store lookup. -/
theorem Env.get_of_outer_none (e : Env) (k : String) (h : e.outer = none) :
    e.get k = storeGet e.store k := by
  cases e with
  | mk store outer f a b c d x =>
      simp only [Env.outer] at h
      subst h
      simp only [Env.get, Env.store]
      cases storeGet store k <;> rfl

/-- The for-loop body of `evalForExpression` (slice arm) followed by the
loop-variable deletions is exactly the loop the claim describes. -/
theorem evalForSlice_deletes_eq_forLoopSpec (render : Env → Res)
    (key valueName : String) (hk : key ≠ "") :
    ∀ (xs : List Value) (i : Nat) (out : String) (env : Env),
      (match evalForSlice render key valueName xs i out env with
       | none => none
       | some (res, env2) =>
           if isErrorValue res then some (res, env2)
           else some (res, deleteLoopVars env2 key valueName))
        = forLoopSpec render key valueName xs i out env := by
  intro xs
  induction xs with
  | nil =>
      intro i out env
      have hkeq : (key != "") = true := by simpa using hk
      simp only [evalForSlice, forLoopSpec, deleteLoopVars, hkeq, if_true, isErrorValue,
        Bool.false_eq_true, if_false]
  | cons x rest ih =>
      intro i out env
      have hkeq : (key != "") = true := by simpa using hk
      simp only [evalForSlice, forLoopSpec, hkeq, if_true]
      cases hr : render ((env.set valueName x).set key (Value.vInt i)) with
      | none => rfl
      | some rp =>
          obtain ⟨res, env3⟩ := rp
          by_cases he : isErrorValue res
          · simp [he]
          · simp only [he, Bool.false_eq_true, if_false]
            cases res with
            | vString s => exact ih (i + 1) (out ++ s) env3
            | vNil => rfl
            | vBool _ => rfl
            | vInt _ => rfl
            | vInt64 _ => rfl
            | vArray _ => rfl
            | vIntSlice _ => rfl
            | vMap _ => rfl
            | vBuiltin _ => rfl
            | vHostFunc _ => rfl
            | vError _ => simp [isErrorValue] at he

/-- A successful (string-valued) run of the claim's loop always ends in an
environment from which both iteration variables have been deleted. -/
theorem forLoopSpec_string_result_shape (render : Env → Res) (key valueName : String) :
    ∀ (xs : List Value) (i : Nat) (out s : String) (env envF : Env),
      forLoopSpec render key valueName xs i out env = some (Value.vString s, envF) →
      ∃ envPre : Env, envF = (envPre.delete valueName).delete key := by
  intro xs
  induction xs with
  | nil =>
      intro i out s env envF h
      simp only [forLoopSpec, Option.some.injEq, Prod.mk.injEq] at h
      exact ⟨env, h.2.symm⟩
  | cons x rest ih =>
      intro i out s env envF h
      cases hr : render ((env.set valueName x).set key (Value.vInt i)) with
      | none => simp [forLoopSpec, hr] at h
      | some rp =>
          obtain ⟨res, env2⟩ := rp
          simp only [forLoopSpec, hr] at h
          by_cases he : isErrorValue res
          · rw [if_pos he] at h
            simp only [Option.some.injEq, Prod.mk.injEq] at h
            rw [h.1] at he
            simp [isErrorValue] at he
          · rw [if_neg he] at h
            cases res with
            | vString s2 => exact ih _ _ _ _ _ h
            | vNil => simp at h
            | vBool _ => simp at h
            | vInt _ => simp at h
            | vInt64 _ => simp at h
            | vArray _ => simp at h
            | vIntSlice _ => simp at h
            | vMap _ => simp at h
            | vBuiltin _ => simp at h
            | vHostFunc _ => simp at h
            | vError _ => simp [isErrorValue] at he

/-- C8: `for k, v in xs` over a sequence of length n (two-name form, so
the key name is non-empty) evaluates, through `Eval`, to exactly the loop
the claim describes (`forLoopSpec`): the body runs once per element, on
iteration i with k bound to the integer i and v to `xs[i]`, the renderings
are concatenated in index order, and on success both loop variables are
deleted from the final environment; on a store without duplicate keys (the
invariant of every reachable environment) and no outer scope, the deletion
makes both names unresolvable. -/
theorem for_loop_matches_claim (L : Loader) (fuel : Nat) (t : Token)
    (key valueName : String) (inE : Option Expr) (block : List Stmt)
    (env env0 : Env) (xs : List Value)
    (hk : key ≠ "")
    (hin : EvalOpt L fuel inE env = some (Value.vArray xs, env0)) :
    Eval L (fuel + 1) (Expr.forExpr t key valueName inE block) env
      = forLoopSpec (evalStatements (EvalStmt L fuel) block "") key valueName xs 0 "" env0 ∧
    (∀ (out : String) (envF : Env),
        Eval L (fuel + 1) (Expr.forExpr t key valueName inE block) env
          = some (Value.vString out, envF) →
        ∃ envPre : Env, envF = (envPre.delete valueName).delete key) ∧
    (∀ (e : Env), e.outer = none → (e.store.map Prod.fst).Nodup →
        ((e.delete valueName).delete key).get key = none ∧
        ((e.delete valueName).delete key).get valueName = none) := by
  have heq : Eval L (fuel + 1) (Expr.forExpr t key valueName inE block) env
      = forLoopSpec (evalStatements (EvalStmt L fuel) block "") key valueName xs 0 "" env0 := by
    simp only [Eval, hin, isErrorValue, Bool.false_eq_true, if_false]
    exact evalForSlice_deletes_eq_forLoopSpec (evalStatements (EvalStmt L fuel) block "")
      key valueName hk xs 0 "" env0
  refine ⟨heq, ?_, ?_⟩
  · intro out envF hres
    rw [heq] at hres
    exact forLoopSpec_string_result_shape _ key valueName xs 0 "" out env0 envF hres
  · intro e houter hnodup
    have houter2 : ((e.delete valueName).delete key).outer = none := by
      rw [Env.delete_outer, Env.delete_outer]; exact houter
    have hstore : ((e.delete valueName).delete key).store
        = storeDelete (storeDelete e.store valueName) key := by
      rw [Env.delete_store, Env.delete_store]
    constructor
    · rw [Env.get_of_outer_none _ _ houter2, hstore]
      apply storeGet_storeDelete_self
      have hsub : List.Sublist ((storeDelete e.store valueName).map Prod.fst)
          (e.store.map Prod.fst) :=
        (storeDelete_sublist e.store valueName).map Prod.fst
      exact hnodup.sublist hsub
    · rw [Env.get_of_outer_none _ _ houter2, hstore]
      apply storeGet_storeDelete_of_none
      exact storeGet_storeDelete_self e.store valueName hnodup

/-- C8 (witness): the loop theorem at the concrete
`for i, x in [10, 20]` with body `{? x ?}`, whose render is `1020` and
whose final environment holds neither `i` nor `x`. -/
theorem for_loop_matches_claim_witness :
    ("i" : String) ≠ "" ∧
    EvalOpt LNone 4 (some (Expr.arrayLit tok0
        [Expr.integerLiteral tok0 10, Expr.integerLiteral tok0 20])) NewEnvironment
      = some (Value.vArray [Value.vInt 10, Value.vInt 20], NewEnvironment) ∧
    Eval LNone 5 forDemo NewEnvironment
      = forLoopSpec (evalStatements (EvalStmt LNone 4)
            [Stmt.exprStmt tok0 (some (Expr.identifier tok0 "x"))] "")
          "i" "x" [Value.vInt 10, Value.vInt 20] 0 "" NewEnvironment ∧
    Eval LNone 5 forDemo NewEnvironment = some (Value.vString "1020", NewEnvironment) ∧
    NewEnvironment.get "i" = none ∧ NewEnvironment.get "x" = none :=
  ⟨by decide, rfl,
   (for_loop_matches_claim LNone 4 tok0 "i" "x"
      (some (Expr.arrayLit tok0 [Expr.integerLiteral tok0 10, Expr.integerLiteral tok0 20]))
      [Stmt.exprStmt tok0 (some (Expr.identifier tok0 "x"))]
      NewEnvironment NewEnvironment [Value.vInt 10, Value.vInt 20] (by decide) rfl).1,
   rfl, rfl, rfl⟩

end Lamb
